import Mathlib

/-!
# sslnew: SSL/BIO creation micro-benchmark

A shallow embedding of `source/sslnew.c` (the workload function `do_sslnew` and
the driver `main`) together with the properties of its iteration budget, its
error flag, its resource handling and its reported average.

Conventions of the embedding.

* `int` values are mathematical integers; the result of an `int` operation is
  passed through `wrapInt` (32-bit two's complement).  `size_t` values are
  natural numbers; results are passed through `wrapSize` (64 bits) and an `int`
  converted to `size_t` goes through `toSizeT`.
* A pointer is an `Option`: `none` is `NULL`.
* Everything the program obtains from outside (the command line as seen by
  `getopt` and `atoi`, the success of each allocation, the clock, the calls the
  threading utility makes to the workload function) is a field of `Env` or of
  `Invocation`.
* `double` arithmetic is carried out over exact rationals.
* The calls the threading utility makes to `do_sslnew` are composed one after
  the other, in the order listed in `Env.invocations`.
-/

namespace Sslnew

/-! ## Machine integers -/

/-- Largest value of a C `int` (32 bits). -/
def INT_MAX : Int := 2147483647

/-- Smallest value of a C `int` (32 bits). -/
def INT_MIN : Int := -2147483648

/-- Largest value of a `size_t` (64 bits). -/
def SIZE_MAX : Nat := 2 ^ 64 - 1

/-- Largest tick count an `OSSL_TIME` can hold (`uint64_t`). -/
def UINT64_MAX : Nat := 2 ^ 64 - 1

/-- The value stored in an `int` when the exact result of an operation is `x`. -/
def wrapInt (x : Int) : Int := (x - INT_MIN) % 2 ^ 32 + INT_MIN

/-- Conversion of an `int` to `size_t`. -/
def toSizeT (x : Int) : Nat := (x % 2 ^ 64).toNat

/-- The value stored in a `size_t` when the exact result of an operation is `n`. -/
def wrapSize (n : Nat) : Nat := n % 2 ^ 64

/-- An exact value fits in an `int`. -/
def inIntRange (x : Int) : Prop := INT_MIN ≤ x ∧ x ≤ INT_MAX

/-- The constant `NUM_CALLS_PER_TEST` (line 19). -/
def NUM_CALLS_PER_TEST : Int := 1000000

/-- Value of `EXIT_SUCCESS` from `stdlib.h`. -/
def EXIT_SUCCESS : Int := 0

/-- Value of `EXIT_FAILURE` from `stdlib.h`. -/
def EXIT_FAILURE : Int := 1

/-! ## The iteration budget (lines 89-91 of `main`) -/

/-- Exact value of `NUM_CALLS_PER_TEST % threadcount` (C remainder truncates). -/
def remExact (threadcount : Int) : Int := Int.tmod NUM_CALLS_PER_TEST threadcount

/-- Exact value of `threadcount - NUM_CALLS_PER_TEST % threadcount`. -/
def padExact (threadcount : Int) : Int := threadcount - wrapInt (remExact threadcount)

/-- Exact value of the `size_t` sum formed by `num_calls += ...`. -/
def sumExact (threadcount : Int) : Nat :=
  toSizeT NUM_CALLS_PER_TEST + toSizeT (wrapInt (padExact threadcount))

/-- The value of `num_calls` after lines 89-91:
`num_calls = NUM_CALLS_PER_TEST;
 if (NUM_CALLS_PER_TEST % threadcount > 0) num_calls += threadcount - NUM_CALLS_PER_TEST % threadcount;` -/
def computeNumCalls (threadcount : Int) : Nat :=
  let num_calls := toSizeT NUM_CALLS_PER_TEST
  if wrapInt (remExact threadcount) > 0 then
    wrapSize (sumExact threadcount)
  else
    num_calls

/-! ## The OpenSSL objects handled by the workload -/

/-- The library entry points `do_sslnew` calls. -/
inductive Call
  | SSL_new
  | BIO_new
  | BIO_free
  | SSL_set_bio
  | SSL_free
  deriving DecidableEq, Repr

/-- Book-keeping of the session and buffer objects: `next` is the identifier the
next successful allocation gets, `allocated` lists the identifiers handed out,
`released` has one entry per release of an object, `bound` records the buffers a
session owns, `calls` logs the entry points called (latest first). -/
structure Heap where
  next : Nat
  allocated : List Nat
  released : List Nat
  bound : List (Nat × Nat × Nat)
  calls : List Call
  deriving DecidableEq, Repr

/-- No object has been created yet. -/
def Heap.empty : Heap := ⟨0, [], [], [], []⟩

/-- Creation of one object by entry point `c`; `ok` tells whether it succeeds. -/
def Heap.create (c : Call) (ok : Bool) (h : Heap) : Option Nat × Heap :=
  if ok then
    (some h.next,
      { h with next := h.next + 1, allocated := h.next :: h.allocated, calls := c :: h.calls })
  else
    (none, { h with calls := c :: h.calls })

/-- Modelled from the spec: `SSL_new` belongs to OpenSSL, outside src/;
`create(context) -> session | failure`. -/
def SSL_new (ok : Bool) (h : Heap) : Option Nat × Heap := Heap.create Call.SSL_new ok h

/-- Modelled from the spec: `BIO_new` belongs to OpenSSL, outside src/;
`create() -> buffer | failure`. -/
def BIO_new (ok : Bool) (h : Heap) : Option Nat × Heap := Heap.create Call.BIO_new ok h

/-- Modelled from the spec: `BIO_free` belongs to OpenSSL, outside src/;
`release(buffer)`, a no-op on `NULL`. -/
def BIO_free (p : Option Nat) (h : Heap) : Heap :=
  match p with
  | none => { h with calls := Call.BIO_free :: h.calls }
  | some b => { h with released := b :: h.released, calls := Call.BIO_free :: h.calls }

/-- Modelled from the spec: `SSL_set_bio` belongs to OpenSSL, outside src/;
`bind(session, read_buffer, write_buffer)` transfers ownership of both buffers
to the session. -/
def SSL_set_bio (s rbio wbio : Option Nat) (h : Heap) : Heap :=
  match s, rbio, wbio with
  | some s, some r, some w =>
      { h with bound := (s, r, w) :: h.bound, calls := Call.SSL_set_bio :: h.calls }
  | _, _, _ => { h with calls := Call.SSL_set_bio :: h.calls }

/-- The buffers session `s` owns. -/
def Heap.ownedBy (h : Heap) (s : Nat) : List Nat :=
  (h.bound.filter (fun b => b.1 = s)).flatMap (fun b => [b.2.1, b.2.2])

/-- Modelled from the spec: `SSL_free` belongs to OpenSSL, outside src/;
`release(session)` cascades release to the bound buffers and is a no-op on
`NULL`. -/
def SSL_free (p : Option Nat) (h : Heap) : Heap :=
  match p with
  | none => { h with calls := Call.SSL_free :: h.calls }
  | some s =>
      { h with released := s :: (h.ownedBy s ++ h.released), calls := Call.SSL_free :: h.calls }

/-! ## Global variables and the workload function -/

/-- The file-scope variables of `sslnew.c`.  `ctx` is `true` when the pointer is
not `NULL`; `times` is `none` for `NULL`, else the tick count of each slot. -/
structure Globals where
  err : Int
  ctx : Bool
  num_calls : Nat
  threadcount : Int
  times : Option (Nat → Nat)

/-- Program state seen by `do_sslnew`: the globals and the library objects. -/
structure State where
  g : Globals
  heap : Heap

/-- Outcome of the three allocations of one iteration. -/
structure Alloc where
  s : Bool
  rbio : Bool
  wbio : Bool
  deriving DecidableEq, Repr

/-- One call of `do_sslnew`: its argument `num`, the outcome of the allocations
of iteration `i`, and the two clock readings. -/
structure Invocation where
  num : Nat
  alloc : Nat → Alloc
  start : Nat
  end_ : Nat

/-- Body of the `for` loop of `do_sslnew` (lines 38-51). -/
def iteration (a : Alloc) (st : State) : State :=
  let r1 := SSL_new a.s st.heap
  let s := r1.1
  let r2 := BIO_new a.rbio r1.2
  let rbio := r2.1
  let r3 := BIO_new a.wbio r2.2
  let wbio := r3.1
  let st1 : State :=
    if s = none ∨ rbio = none ∨ wbio = none then
      { g := { st.g with err := 1 }, heap := BIO_free wbio (BIO_free rbio r3.2) }
    else
      { g := st.g, heap := SSL_set_bio s rbio wbio r3.2 }
  { st1 with heap := SSL_free s st1.heap }

/-- The `for` loop of `do_sslnew` with `n` iterations left, at index `i`. -/
def loop (alloc : Nat → Alloc) : Nat → Nat → State → State
  | 0, _, st => st
  | n + 1, i, st => loop alloc n (i + 1) (iteration (alloc i) st)

/-- The loop bound `num_calls / threadcount` (line 37), a `size_t` division. -/
def loopBound (g : Globals) : Nat := g.num_calls / toSizeT g.threadcount

/-- Modelled from the spec: `ossl_time_subtract` belongs to OpenSSL, outside
src/; `subtract(end, start) -> duration`, zero when `end` precedes `start`. -/
def ossl_time_subtract (a b : Nat) : Nat := if b ≤ a then a - b else 0

/-- Modelled from the spec: `ossl_time_add` belongs to OpenSSL, outside src/;
`add(duration, duration) -> duration`, saturating at the largest tick count. -/
def ossl_time_add (a b : Nat) : Nat := if a + b ≤ UINT64_MAX then a + b else UINT64_MAX

/-- Modelled from the spec: `OSSL_TIME_US` belongs to OpenSSL, outside src/;
the fixed `ticks_per_microsecond` constant (ticks are nanoseconds). -/
def OSSL_TIME_US : Nat := 1000

/-- The workload function `do_sslnew(num)` (lines 28-56). -/
def do_sslnew (inv : Invocation) (st : State) : State :=
  let st1 := loop inv.alloc (loopBound st.g) 0 st
  { st1 with
    g := { st1.g with
      times := st1.g.times.map
        (fun a => Function.update a inv.num (ossl_time_subtract inv.end_ inv.start)) } }

/-- The calls of `do_sslnew` made by the threading utility, one after the other. -/
def runThreads (invs : List Invocation) (st : State) : State :=
  invs.foldl (fun acc inv => do_sslnew inv acc) st

/-! ## The driver -/

/-- Argument substituted into a `printf` format. -/
inductive Arg
  | none
  | str (s : String)
  | dbl (q : ℚ)
  deriving DecidableEq

/-- What `main` does to the outside world, in order. -/
inductive Ev
  | printf (fmt : String) (arg : Arg)
  | OPENSSL_malloc (ok : Bool)
  | SSL_CTX_new (ok : Bool)
  | perflib_run_multi_thread_test (ok : Bool)
  | SSL_CTX_free (nonNull : Bool)
  | OPENSSL_free (nonNull : Bool)
  deriving DecidableEq

/-- Everything `main` obtains from its environment.  `opts` are the successive
results of `getopt` before it returns -1; `arg` is `none` when `argv[optind]` is
`NULL` and else the result of `atoi`; `initTimes` is the content of the fresh
`times` array; `runOk` is the result of `perflib_run_multi_thread_test` and
`invocations` are the calls of `do_sslnew` it made. -/
structure Env where
  opts : List Char
  progname : String
  arg : Option Int
  mallocOk : Bool
  initTimes : Nat → Nat
  ctxOk : Bool
  runOk : Bool
  invocations : List Invocation

/-- What a run of `main` yields: return code, events, final state. -/
structure Result where
  rc : Int
  trace : List Ev
  st : State

/-- State at program start: `err = 0`, `ctx = NULL`, `times = NULL`. -/
def initState : State :=
  { g := { err := 0, ctx := false, num_calls := 0, threadcount := 0, times := none },
    heap := Heap.empty }

/-- The `getopt` loop (lines 68-78): `none` when an option other than `t` is met,
else the final value of `terse`. -/
def parseOpts : List Char → Int → Option Int
  | [], terse => some terse
  | c :: rest, _terse => if c = 't' then parseOpts rest 1 else none

/-- The summation loop of line 116-117 with `n` iterations left, at index `i`. -/
def sumLoop (times : Nat → Nat) : Nat → Nat → Nat → Nat
  | 0, _, ttime => ttime
  | n + 1, i, ttime => sumLoop times n (i + 1) (ossl_time_add ttime (times i))

/-- Content of slot `i` of the `times` array. -/
def timesAt (g : Globals) (i : Nat) : Nat :=
  match g.times with
  | some a => a i
  | none => 0

/-- Lines 115-117: `ttime = times[0]; for (i = 1; i < threadcount; i++) ...`. -/
def totalTime (g : Globals) : Nat :=
  sumLoop (timesAt g) (toSizeT g.threadcount - 1) 1 (timesAt g 0)

/-- Line 119 over exact rationals. -/
def avcalltime (g : Globals) : ℚ :=
  ((totalTime g : ℚ) / (g.num_calls : ℚ)) / (OSSL_TIME_US : ℚ)

/-- The label `out:` (lines 127-130). -/
def out (rc : Int) (trace : List Ev) (st : State) : Result :=
  { rc := rc,
    trace := trace ++ [Ev.SSL_CTX_free st.g.ctx, Ev.OPENSSL_free st.g.times.isSome],
    st := st }

/-- The driver `main` (lines 58-131). -/
def main (env : Env) : Result :=
  let rc := EXIT_FAILURE
  match parseOpts env.opts 0 with
  | none =>
      { rc := EXIT_FAILURE,
        trace := [Ev.printf "Usage: %s [-t] threadcount\n" (Arg.str env.progname),
                  Ev.printf "-t - terse output\n" Arg.none],
        st := initState }
  | some terse =>
    match env.arg with
    | none =>
        { rc := EXIT_FAILURE,
          trace := [Ev.printf "threadcount is missing\n" Arg.none],
          st := initState }
    | some n =>
      let st1 : State := { initState with g := { initState.g with threadcount := n } }
      if st1.g.threadcount < 1 then
        { rc := EXIT_FAILURE,
          trace := [Ev.printf "threadcount must be > 0\n" Arg.none],
          st := st1 }
      else
        let st2 : State :=
          { st1 with g := { st1.g with num_calls := computeNumCalls st1.g.threadcount } }
        let t1 := [Ev.OPENSSL_malloc env.mallocOk]
        if env.mallocOk = false then
          { rc := EXIT_FAILURE,
            trace := t1 ++ [Ev.printf "Failed to create times array\n" Arg.none],
            st := st2 }
        else
          let st3 : State := { st2 with g := { st2.g with times := some env.initTimes } }
          let t2 := t1 ++ [Ev.SSL_CTX_new env.ctxOk]
          if env.ctxOk = false then
            out rc (t2 ++ [Ev.printf "Failure to create SSL_CTX\n" Arg.none]) st3
          else
            let st4 : State := { st3 with g := { st3.g with ctx := true } }
            let st5 := runThreads env.invocations st4
            let t3 := t2 ++ [Ev.perflib_run_multi_thread_test env.runOk]
            if env.runOk = false then
              out rc (t3 ++ [Ev.printf "Failed to run the test\n" Arg.none]) st5
            else if st5.g.err ≠ 0 then
              out rc (t3 ++ [Ev.printf "Error during test\n" Arg.none]) st5
            else
              let av := avcalltime st5.g
              let t4 :=
                if terse ≠ 0 then
                  t3 ++ [Ev.printf "%lf\n" (Arg.dbl av)]
                else
                  t3 ++ [Ev.printf "Average time per SSL/BIO creation call: %lfus\n" (Arg.dbl av)]
              out EXIT_SUCCESS t4 st5

/-! ## Observations on a run -/

/-- Number of line ends a `printf` format writes. -/
def newlines (fmt : String) : Nat := fmt.toList.count '\n'

/-- Number of lines an event writes to standard output. -/
def Ev.lines : Ev → Nat
  | Ev.printf fmt _ => newlines fmt
  | _ => 0

/-- Number of lines written to standard output by a trace. -/
def linesWritten (trace : List Ev) : Nat := (trace.map Ev.lines).sum

/-- The event prints the average (a `%lf` conversion). -/
def Ev.isTiming : Ev → Bool
  | Ev.printf _ (Arg.dbl _) => true
  | _ => false

/-- The event is a call of the threading utility. -/
def Ev.isRun : Ev → Bool
  | Ev.perflib_run_multi_thread_test _ => true
  | _ => false

/-- The event is a `printf`. -/
def Ev.isPrintf : Ev → Bool
  | Ev.printf _ _ => true
  | _ => false

/-- The average a trace reports, if it reports one. -/
def reported : List Ev → Option ℚ
  | [] => none
  | Ev.printf _ (Arg.dbl q) :: _ => some q
  | _ :: rest => reported rest

/-- All options are the recognised `-t`. -/
def optsRecognised (opts : List Char) : Prop := ∀ c ∈ opts, c = 't'

/-- Some allocation of iteration `i` of invocation `inv` fails. -/
def allocFails (inv : Invocation) (i : Nat) : Prop :=
  (inv.alloc i).s = false ∨ (inv.alloc i).rbio = false ∨ (inv.alloc i).wbio = false

/-- The state in which `main` calls the threading utility. -/
def readyState (n : Int) (initTimes : Nat → Nat) : State :=
  { g := { err := 0, ctx := true, num_calls := computeNumCalls n, threadcount := n,
           times := some initTimes },
    heap := Heap.empty }

/-- What `main` prints: the `printf` events of a trace. -/
def stdout (trace : List Ev) : List Ev := trace.filter Ev.isPrintf

instance (opts : List Char) : Decidable (optsRecognised opts) :=
  inferInstanceAs (Decidable (∀ c ∈ opts, c = 't'))

/-! ## Resource accounting -/

/-- Number of successful acquisitions of the `times` array in a trace. -/
def timesAcquired (trace : List Ev) : Nat := trace.count (Ev.OPENSSL_malloc true)

/-- Number of releases of a non-`NULL` `times` array in a trace. -/
def timesReleased (trace : List Ev) : Nat := trace.count (Ev.OPENSSL_free true)

/-- Number of successful creations of the `SSL_CTX` in a trace. -/
def ctxAcquired (trace : List Ev) : Nat := trace.count (Ev.SSL_CTX_new true)

/-- Number of releases of a non-`NULL` `SSL_CTX` in a trace. -/
def ctxReleased (trace : List Ev) : Nat := trace.count (Ev.SSL_CTX_free true)

/-- Identifiers are handed out in increasing order: every identifier the
book-keeping mentions is below `next`. -/
def Heap.wf (h : Heap) : Prop :=
  (∀ id ∈ h.allocated, id < h.next) ∧ (∀ id ∈ h.released, id < h.next) ∧
  (∀ b ∈ h.bound, b.1 < h.next)

/-- Number of objects created by an iteration with allocation outcome `a`. -/
def Alloc.created (a : Alloc) : Nat :=
  (if a.s then 1 else 0) + (if a.rbio then 1 else 0) + (if a.wbio then 1 else 0)

/-! ## Sample runs -/

/-- Every allocation succeeds. -/
def okAlloc : Nat → Alloc := fun _ => ⟨true, true, true⟩

/-- A thread whose allocations all succeed and whose loop takes `d` ticks. -/
def okThread (num d : Nat) : Invocation := ⟨num, okAlloc, 100, 100 + d⟩

/-- A thread whose read buffer cannot be created in iteration 5. -/
def failThread : Invocation :=
  ⟨1, fun i => if i = 5 then ⟨true, false, true⟩ else ⟨true, true, true⟩, 100, 200⟩

/-- A run `sslnew 3` in which everything succeeds. -/
def env3 : Env :=
  { opts := [], progname := "sslnew", arg := some 3, mallocOk := true,
    initTimes := fun _ => 0, ctxOk := true, runOk := true,
    invocations := [okThread 0 3000000, okThread 1 4000000, okThread 2 5000000] }

/-- A run `sslnew -x 3`: an option `getopt` does not recognise. -/
def envBadFlag : Env :=
  { opts := ['?'], progname := "sslnew", arg := some 3, mallocOk := true,
    initTimes := fun _ => 0, ctxOk := true, runOk := true, invocations := [] }

/-! ## Lemmas on the iteration budget -/

theorem wrapInt_of_inRange (x : Int) (h : inIntRange x) : wrapInt x = x := by
  unfold inIntRange INT_MIN INT_MAX at h
  unfold wrapInt INT_MIN
  omega

theorem toSizeT_of_nonneg (x : Int) (h0 : 0 ≤ x) (h1 : x ≤ INT_MAX) : (toSizeT x : Int) = x := by
  unfold INT_MAX at h1
  unfold toSizeT
  omega

theorem remExact_eq (t : Int) (h1 : 1 ≤ t) : remExact t = 1000000 % t := by
  unfold remExact NUM_CALLS_PER_TEST
  exact Int.tmod_eq_emod (by norm_num) (by omega)

theorem remExact_bounds (t : Int) (h1 : 1 ≤ t) : 0 ≤ remExact t ∧ remExact t < t := by
  rw [remExact_eq t h1]
  exact ⟨Int.emod_nonneg _ (by omega), Int.emod_lt_of_pos _ (by omega)⟩

theorem remExact_le (t : Int) (h1 : 1 ≤ t) : remExact t ≤ 1000000 := by
  rw [remExact_eq t h1]
  have hdm := Int.emod_add_ediv 1000000 t
  have hq : 0 ≤ (1000000 : Int) / t := Int.ediv_nonneg (by norm_num) (by omega)
  have : 0 ≤ t * (1000000 / t) := mul_nonneg (by omega) hq
  omega

/-- With a thread count in `1 .. INT_MAX` the budget is the nominal count plus
the padding, computed without any wrap-around. -/
theorem computeNumCalls_exact (t : Int) (h1 : 1 ≤ t) (h2 : t ≤ INT_MAX) :
    (computeNumCalls t : Int) =
      if 1000000 % t > 0 then 1000000 + (t - 1000000 % t) else 1000000 := by
  have hb := remExact_bounds t h1
  have hle := remExact_le t h1
  have hr : wrapInt (remExact t) = remExact t := by
    apply wrapInt_of_inRange
    unfold inIntRange INT_MIN
    unfold INT_MAX at *
    omega
  have hp : wrapInt (padExact t) = t - remExact t := by
    unfold padExact
    rw [hr]
    apply wrapInt_of_inRange
    unfold inIntRange INT_MIN
    unfold INT_MAX at *
    omega
  have hn : (toSizeT NUM_CALLS_PER_TEST : Int) = 1000000 :=
    toSizeT_of_nonneg _ (by unfold NUM_CALLS_PER_TEST; norm_num)
      (by unfold NUM_CALLS_PER_TEST INT_MAX; norm_num)
  have hpad : (toSizeT (t - remExact t) : Int) = t - remExact t :=
    toSizeT_of_nonneg _ (by omega) (by omega)
  unfold computeNumCalls sumExact
  rw [hr, hp]
  simp only []
  rw [← remExact_eq t h1]
  by_cases hpos : remExact t > 0
  · rw [if_pos hpos, if_pos hpos]
    unfold wrapSize
    unfold INT_MAX at h2
    have : toSizeT NUM_CALLS_PER_TEST + toSizeT (t - remExact t) < 2 ^ 64 := by omega
    rw [Nat.mod_eq_of_lt this]
    push_cast
    rw [hn, hpad]
  · rw [if_neg hpos, if_neg hpos]
    exact hn

/-- Division form of the budget: with `1000000 = q * t + r`, the budget is
`q * t` when `r = 0` and `(q + 1) * t` otherwise. -/
theorem computeNumCalls_div (t : Int) (h1 : 1 ≤ t) (h2 : t ≤ INT_MAX) :
    (computeNumCalls t : Int) =
      (if 1000000 % t > 0 then 1000000 / t + 1 else 1000000 / t) * t := by
  rw [computeNumCalls_exact t h1 h2]
  have hdm := Int.emod_add_ediv 1000000 t
  have hnn : 0 ≤ (1000000 : Int) % t := Int.emod_nonneg _ (by omega)
  by_cases hpos : (1000000 : Int) % t > 0
  · rw [if_pos hpos, if_pos hpos]
    linarith [mul_comm t (1000000 / t)]
  · rw [if_neg hpos, if_neg hpos]
    have : (1000000 : Int) % t = 0 := by omega
    linarith [mul_comm t (1000000 / t)]

/-- The budget as a ceiling: `ceil(1000000 / t) * t`. -/
theorem computeNumCalls_ceil (t : Int) (h1 : 1 ≤ t) (h2 : t ≤ INT_MAX) :
    (computeNumCalls t : Int) = ⌈(1000000 : ℚ) / (t : ℚ)⌉ * t := by
  rw [computeNumCalls_div t h1 h2]
  congr 1
  symm
  have htq : (0 : ℚ) < (t : ℚ) := by exact_mod_cast (by omega : (0 : Int) < t)
  have hdm := Int.emod_add_ediv 1000000 t
  have hnn : 0 ≤ (1000000 : Int) % t := Int.emod_nonneg _ (by omega)
  have hlt : (1000000 : Int) % t < t := Int.emod_lt_of_pos _ (by omega)
  have hdmq : ((1000000 % t : Int) : ℚ) + (t : ℚ) * ((1000000 / t : Int) : ℚ) = 1000000 := by
    exact_mod_cast hdm
  have hnnq : (0 : ℚ) ≤ ((1000000 % t : Int) : ℚ) := by exact_mod_cast hnn
  have hltq : ((1000000 % t : Int) : ℚ) < (t : ℚ) := by exact_mod_cast hlt
  rw [Int.ceil_eq_iff]
  by_cases hpos : (1000000 : Int) % t > 0
  · rw [if_pos hpos]
    have hposq : (0 : ℚ) < ((1000000 % t : Int) : ℚ) := by exact_mod_cast hpos
    constructor
    · rw [lt_div_iff₀ htq]
      push_cast
      nlinarith
    · rw [div_le_iff₀ htq]
      push_cast
      nlinarith
  · rw [if_neg hpos]
    have hz : (1000000 : Int) % t = 0 := by omega
    rw [hz] at hdmq
    constructor
    · rw [lt_div_iff₀ htq]
      push_cast at hdmq ⊢
      nlinarith
    · rw [div_le_iff₀ htq]
      push_cast at hdmq ⊢
      nlinarith

/-- The budget is a multiple of the thread count. -/
theorem computeNumCalls_mod (t : Int) (h1 : 1 ≤ t) (h2 : t ≤ INT_MAX) :
    (computeNumCalls t : Int) % t = 0 := by
  rw [computeNumCalls_div t h1 h2]
  exact Int.mul_emod_left _ _

/-- The budget is at least the nominal count. -/
theorem computeNumCalls_ge (t : Int) (h1 : 1 ≤ t) (h2 : t ≤ INT_MAX) :
    1000000 ≤ computeNumCalls t := by
  have h := computeNumCalls_exact t h1 h2
  have hlt : (1000000 : Int) % t < t := Int.emod_lt_of_pos _ (by omega)
  split_ifs at h <;> omega

/-- No multiple of the thread count lies between the nominal count and the budget. -/
theorem computeNumCalls_least (t : Int) (h1 : 1 ≤ t) (h2 : t ≤ INT_MAX) (m : Nat)
    (hm : (m : Int) % t = 0) (hge : 1000000 ≤ m) : computeNumCalls t ≤ m := by
  have h := computeNumCalls_div t h1 h2
  have hdm := Int.emod_add_ediv 1000000 t
  have hnn : 0 ≤ (1000000 : Int) % t := Int.emod_nonneg _ (by omega)
  obtain ⟨j, hj⟩ := Int.dvd_of_emod_eq_zero hm
  have hgeI : (1000000 : Int) ≤ (m : Int) := by exact_mod_cast hge
  suffices hs : (computeNumCalls t : Int) ≤ (m : Int) by exact_mod_cast hs
  rw [h, hj]
  by_cases hpos : (1000000 : Int) % t > 0
  · rw [if_pos hpos]
    have hjq : 1000000 / t < j := by
      by_contra hcon
      have hle : j ≤ 1000000 / t := by omega
      have : t * j ≤ t * (1000000 / t) := mul_le_mul_of_nonneg_left hle (by omega)
      omega
    have : t * (1000000 / t + 1) ≤ t * j := mul_le_mul_of_nonneg_left (by omega) (by omega)
    linarith [mul_comm t (1000000 / t + 1)]
  · rw [if_neg hpos]
    have hz : (1000000 : Int) % t = 0 := by omega
    rw [hz] at hdm
    linarith [mul_comm t (1000000 / t)]

/-- The `int` and `size_t` intermediates of lines 90-91 stay in range. -/
theorem computeNumCalls_no_overflow (t : Int) (h1 : 1 ≤ t) (h2 : t ≤ INT_MAX) :
    inIntRange (remExact t) ∧ inIntRange (padExact t) ∧ sumExact t ≤ SIZE_MAX := by
  have hb := remExact_bounds t h1
  have hle := remExact_le t h1
  have hr : wrapInt (remExact t) = remExact t := by
    apply wrapInt_of_inRange
    unfold inIntRange INT_MIN
    unfold INT_MAX at *
    omega
  have hpr : inIntRange (padExact t) := by
    unfold padExact
    rw [hr]
    unfold inIntRange INT_MIN
    unfold INT_MAX at *
    omega
  refine ⟨?_, hpr, ?_⟩
  · unfold inIntRange INT_MIN
    unfold INT_MAX at *
    omega
  · have hp : wrapInt (padExact t) = padExact t := wrapInt_of_inRange _ hpr
    have hn : (toSizeT NUM_CALLS_PER_TEST : Int) = 1000000 :=
      toSizeT_of_nonneg _ (by unfold NUM_CALLS_PER_TEST; norm_num)
        (by unfold NUM_CALLS_PER_TEST INT_MAX; norm_num)
    have hpad : (toSizeT (padExact t) : Int) = padExact t := by
      apply toSizeT_of_nonneg
      · unfold padExact
        rw [hr]
        omega
      · exact hpr.2
    unfold sumExact SIZE_MAX
    rw [hp]
    unfold inIntRange INT_MAX at hpr
    omega

/-! ## Lemmas on the workload loop -/

/-- The loop body leaves the budget, the thread count and the pointers alone. -/
theorem iteration_globals (a : Alloc) (st : State) :
    (iteration a st).g.num_calls = st.g.num_calls ∧
    (iteration a st).g.threadcount = st.g.threadcount ∧
    (iteration a st).g.times = st.g.times ∧
    (iteration a st).g.ctx = st.g.ctx := by
  unfold iteration
  simp only []
  split_ifs <;> exact ⟨rfl, rfl, rfl, rfl⟩

theorem iteration_err (a : Alloc) (st : State) :
    (iteration a st).g.err =
      if a.s = false ∨ a.rbio = false ∨ a.wbio = false then 1 else st.g.err := by
  rcases a with ⟨_ | _, _ | _, _ | _⟩ <;>
    simp [iteration, SSL_new, BIO_new, Heap.create]

theorem iteration_calls (a : Alloc) (st : State) :
    (iteration a st).heap.calls.count Call.SSL_new = st.heap.calls.count Call.SSL_new + 1 ∧
    (iteration a st).heap.calls.count Call.BIO_new = st.heap.calls.count Call.BIO_new + 2 ∧
    (iteration a st).heap.calls.count Call.SSL_free = st.heap.calls.count Call.SSL_free + 1 := by
  rcases a with ⟨_ | _, _ | _, _ | _⟩ <;>
    simp [iteration, SSL_new, BIO_new, BIO_free, SSL_set_bio, SSL_free, Heap.create]

theorem loop_globals (alloc : Nat → Alloc) (n i : Nat) (st : State) :
    (loop alloc n i st).g.num_calls = st.g.num_calls ∧
    (loop alloc n i st).g.threadcount = st.g.threadcount ∧
    (loop alloc n i st).g.times = st.g.times ∧
    (loop alloc n i st).g.ctx = st.g.ctx := by
  induction n generalizing i st with
  | zero => exact ⟨rfl, rfl, rfl, rfl⟩
  | succ n ih =>
    have h := ih (i + 1) (iteration (alloc i) st)
    have h0 := iteration_globals (alloc i) st
    simp only [loop]
    exact ⟨h.1.trans h0.1, h.2.1.trans h0.2.1, h.2.2.1.trans h0.2.2.1, h.2.2.2.trans h0.2.2.2⟩

theorem loop_calls (alloc : Nat → Alloc) (n i : Nat) (st : State) :
    (loop alloc n i st).heap.calls.count Call.SSL_new = st.heap.calls.count Call.SSL_new + n ∧
    (loop alloc n i st).heap.calls.count Call.BIO_new
      = st.heap.calls.count Call.BIO_new + 2 * n ∧
    (loop alloc n i st).heap.calls.count Call.SSL_free
      = st.heap.calls.count Call.SSL_free + n := by
  induction n generalizing i st with
  | zero => exact ⟨rfl, rfl, rfl⟩
  | succ n ih =>
    have h := ih (i + 1) (iteration (alloc i) st)
    have h0 := iteration_calls (alloc i) st
    simp only [loop]
    omega

theorem loop_err (alloc : Nat → Alloc) (n i : Nat) (st : State) :
    (loop alloc n i st).g.err ≠ 0 ↔
      st.g.err ≠ 0 ∨ ∃ k, k < n ∧
        ((alloc (i + k)).s = false ∨ (alloc (i + k)).rbio = false ∨ (alloc (i + k)).wbio = false) := by
  induction n generalizing i st with
  | zero => simp [loop]
  | succ n ih =>
    simp only [loop]
    rw [ih (i + 1) (iteration (alloc i) st), iteration_err]
    constructor
    · rintro (h | ⟨k, hk, hf⟩)
      · by_cases hc : (alloc i).s = false ∨ (alloc i).rbio = false ∨ (alloc i).wbio = false
        · exact Or.inr ⟨0, by omega, by simpa using hc⟩
        · rw [if_neg hc] at h
          exact Or.inl h
      · refine Or.inr ⟨k + 1, by omega, ?_⟩
        rw [show i + (k + 1) = i + 1 + k by omega]
        exact hf
    · rintro (h | ⟨k, hk, hf⟩)
      · by_cases hc : (alloc i).s = false ∨ (alloc i).rbio = false ∨ (alloc i).wbio = false
        · rw [if_pos hc]
          exact Or.inl (by decide)
        · rw [if_neg hc]
          exact Or.inl h
      · cases k with
        | zero =>
          have hc : (alloc i).s = false ∨ (alloc i).rbio = false ∨ (alloc i).wbio = false := by
            simpa using hf
          rw [if_pos hc]
          exact Or.inl (by decide)
        | succ k =>
          refine Or.inr ⟨k, by omega, ?_⟩
          rw [show i + 1 + k = i + (k + 1) by omega]
          exact hf

theorem do_sslnew_globals (inv : Invocation) (st : State) :
    (do_sslnew inv st).g.num_calls = st.g.num_calls ∧
    (do_sslnew inv st).g.threadcount = st.g.threadcount ∧
    (do_sslnew inv st).g.times.isSome = st.g.times.isSome ∧
    (do_sslnew inv st).g.ctx = st.g.ctx := by
  have h := loop_globals inv.alloc (loopBound st.g) 0 st
  unfold do_sslnew
  simp only []
  refine ⟨h.1, h.2.1, ?_, h.2.2.2⟩
  rw [h.2.2.1]
  cases st.g.times <;> rfl

theorem do_sslnew_heap (inv : Invocation) (st : State) :
    (do_sslnew inv st).heap = (loop inv.alloc (loopBound st.g) 0 st).heap := rfl

theorem do_sslnew_err (inv : Invocation) (st : State) :
    (do_sslnew inv st).g.err = (loop inv.alloc (loopBound st.g) 0 st).g.err := rfl

theorem do_sslnew_loopBound (inv : Invocation) (st : State) :
    loopBound (do_sslnew inv st).g = loopBound st.g := by
  have h := do_sslnew_globals inv st
  unfold loopBound
  rw [h.1, h.2.1]

theorem do_sslnew_err_iff (inv : Invocation) (st : State) :
    (do_sslnew inv st).g.err ≠ 0 ↔
      st.g.err ≠ 0 ∨ ∃ i, i < loopBound st.g ∧ allocFails inv i := by
  rw [do_sslnew_err, loop_err]
  simp only [allocFails, Nat.zero_add]

theorem runThreads_nil (st : State) : runThreads [] st = st := rfl

theorem runThreads_cons (inv : Invocation) (invs : List Invocation) (st : State) :
    runThreads (inv :: invs) st = runThreads invs (do_sslnew inv st) := rfl

theorem runThreads_globals (invs : List Invocation) (st : State) :
    (runThreads invs st).g.num_calls = st.g.num_calls ∧
    (runThreads invs st).g.threadcount = st.g.threadcount ∧
    (runThreads invs st).g.times.isSome = st.g.times.isSome ∧
    (runThreads invs st).g.ctx = st.g.ctx := by
  induction invs generalizing st with
  | nil => exact ⟨rfl, rfl, rfl, rfl⟩
  | cons inv invs ih =>
    have h := ih (do_sslnew inv st)
    have h0 := do_sslnew_globals inv st
    rw [runThreads_cons]
    exact ⟨h.1.trans h0.1, h.2.1.trans h0.2.1, h.2.2.1.trans h0.2.2.1, h.2.2.2.trans h0.2.2.2⟩

theorem runThreads_err_iff (invs : List Invocation) (st : State) :
    (runThreads invs st).g.err ≠ 0 ↔
      st.g.err ≠ 0 ∨ ∃ inv, inv ∈ invs ∧ ∃ i, i < loopBound st.g ∧ allocFails inv i := by
  induction invs generalizing st with
  | nil => simp [runThreads_nil]
  | cons inv invs ih =>
    rw [runThreads_cons, ih (do_sslnew inv st), do_sslnew_err_iff, do_sslnew_loopBound]
    constructor
    · rintro ((h | ⟨i, hi, hf⟩) | ⟨v, hv, i, hi, hf⟩)
      · exact Or.inl h
      · exact Or.inr ⟨inv, List.mem_cons_self _ _, i, hi, hf⟩
      · exact Or.inr ⟨v, List.mem_cons_of_mem _ hv, i, hi, hf⟩
    · rintro (h | ⟨v, hv, i, hi, hf⟩)
      · exact Or.inl (Or.inl h)
      · rcases List.mem_cons.1 hv with rfl | hv
        · exact Or.inl (Or.inr ⟨i, hi, hf⟩)
        · exact Or.inr ⟨v, hv, i, hi, hf⟩

theorem do_sslnew_calls (inv : Invocation) (st : State) :
    (do_sslnew inv st).heap.calls.count Call.SSL_new
      = st.heap.calls.count Call.SSL_new + loopBound st.g ∧
    (do_sslnew inv st).heap.calls.count Call.BIO_new
      = st.heap.calls.count Call.BIO_new + 2 * loopBound st.g ∧
    (do_sslnew inv st).heap.calls.count Call.SSL_free
      = st.heap.calls.count Call.SSL_free + loopBound st.g := by
  rw [do_sslnew_heap]
  exact loop_calls inv.alloc (loopBound st.g) 0 st

theorem runThreads_loopBound (invs : List Invocation) (st : State) :
    loopBound (runThreads invs st).g = loopBound st.g := by
  have h := runThreads_globals invs st
  unfold loopBound
  rw [h.1, h.2.1]

theorem runThreads_calls (invs : List Invocation) (st : State) :
    (runThreads invs st).heap.calls.count Call.SSL_new
      = st.heap.calls.count Call.SSL_new + invs.length * loopBound st.g ∧
    (runThreads invs st).heap.calls.count Call.SSL_free
      = st.heap.calls.count Call.SSL_free + invs.length * loopBound st.g := by
  induction invs generalizing st with
  | nil => simp [runThreads_nil]
  | cons inv invs ih =>
    have h := ih (do_sslnew inv st)
    have h0 := do_sslnew_calls inv st
    rw [do_sslnew_loopBound] at h
    rw [runThreads_cons, List.length_cons, Nat.add_mul, Nat.one_mul]
    omega

/-- The flag is a latch: one call of `do_sslnew` never clears it. -/
theorem do_sslnew_err_latch (inv : Invocation) (st : State) (h : st.g.err ≠ 0) :
    (do_sslnew inv st).g.err ≠ 0 :=
  (do_sslnew_err_iff inv st).2 (Or.inl h)

/-! ## Lemmas on the driver -/

theorem parseOpts_none_iff (opts : List Char) (terse : Int) :
    parseOpts opts terse = none ↔ ¬ optsRecognised opts := by
  induction opts generalizing terse with
  | nil => simp [parseOpts, optsRecognised]
  | cons c rest ih =>
    unfold parseOpts
    by_cases hc : c = 't'
    · rw [if_pos hc, ih 1]
      simp [optsRecognised, hc]
    · rw [if_neg hc]
      simp [optsRecognised, hc]

theorem parseOpts_some_iff (opts : List Char) (terse : Int) :
    (∃ v, parseOpts opts terse = some v) ↔ optsRecognised opts := by
  have h := parseOpts_none_iff opts terse
  cases hp : parseOpts opts terse with
  | none =>
    rw [hp] at h
    simp only [true_iff] at h
    simp [h]
  | some v =>
    rw [hp] at h
    simp only [reduceCtorEq, false_iff, not_not] at h
    simp [h]

theorem main_badopt (env : Env) (h : parseOpts env.opts 0 = none) :
    main env =
      { rc := EXIT_FAILURE,
        trace := [Ev.printf "Usage: %s [-t] threadcount\n" (Arg.str env.progname),
                  Ev.printf "-t - terse output\n" Arg.none],
        st := initState } := by
  unfold main
  simp only [h]

theorem main_noarg (env : Env) (terse : Int) (h : parseOpts env.opts 0 = some terse)
    (ha : env.arg = none) :
    main env =
      { rc := EXIT_FAILURE,
        trace := [Ev.printf "threadcount is missing\n" Arg.none],
        st := initState } := by
  unfold main
  simp only [h, ha]

theorem main_small (env : Env) (terse : Int) (h : parseOpts env.opts 0 = some terse)
    (n : Int) (ha : env.arg = some n) (hn : n < 1) :
    main env =
      { rc := EXIT_FAILURE,
        trace := [Ev.printf "threadcount must be > 0\n" Arg.none],
        st := { initState with g := { initState.g with threadcount := n } } } := by
  unfold main
  simp only [h, ha, hn, if_true]

theorem main_nomalloc (env : Env) (terse : Int) (h : parseOpts env.opts 0 = some terse)
    (n : Int) (ha : env.arg = some n) (hn : 1 ≤ n) (hm : env.mallocOk = false) :
    main env =
      { rc := EXIT_FAILURE,
        trace := [Ev.OPENSSL_malloc false, Ev.printf "Failed to create times array\n" Arg.none],
        st := { initState with
                g := { initState.g with threadcount := n, num_calls := computeNumCalls n } } } := by
  unfold main
  simp only [h, ha, hm, if_true, if_neg (not_lt.2 hn)]
  rfl

theorem main_noctx (env : Env) (terse : Int) (h : parseOpts env.opts 0 = some terse)
    (n : Int) (ha : env.arg = some n) (hn : 1 ≤ n) (hm : env.mallocOk = true)
    (hc : env.ctxOk = false) :
    main env =
      { rc := EXIT_FAILURE,
        trace := [Ev.OPENSSL_malloc true, Ev.SSL_CTX_new false,
                  Ev.printf "Failure to create SSL_CTX\n" Arg.none,
                  Ev.SSL_CTX_free false, Ev.OPENSSL_free true],
        st := { (readyState n env.initTimes) with
                g := { (readyState n env.initTimes).g with ctx := false } } } := by
  unfold main
  simp only [h, ha, hm, hc, if_true, if_neg (not_lt.2 hn)]
  rfl

theorem main_runfail (env : Env) (terse : Int) (h : parseOpts env.opts 0 = some terse)
    (n : Int) (ha : env.arg = some n) (hn : 1 ≤ n) (hm : env.mallocOk = true)
    (hc : env.ctxOk = true) (hr : env.runOk = false) :
    main env =
      { rc := EXIT_FAILURE,
        trace := [Ev.OPENSSL_malloc true, Ev.SSL_CTX_new true,
                  Ev.perflib_run_multi_thread_test false,
                  Ev.printf "Failed to run the test\n" Arg.none,
                  Ev.SSL_CTX_free true, Ev.OPENSSL_free true],
        st := runThreads env.invocations (readyState n env.initTimes) } := by
  have hg := runThreads_globals env.invocations (readyState n env.initTimes)
  unfold main
  simp only [h, ha, hm, hc, hr, if_true, if_neg (not_lt.2 hn)]
  have e1 : (runThreads env.invocations
      ⟨⟨initState.g.err, true, computeNumCalls n, n, some env.initTimes⟩, initState.heap⟩).g.ctx
        = true := hg.2.2.2
  have e2 : (runThreads env.invocations
      ⟨⟨initState.g.err, true, computeNumCalls n, n, some env.initTimes⟩,
        initState.heap⟩).g.times.isSome = true := hg.2.2.1
  simp only [out, Bool.true_eq_false, if_false, List.cons_append, List.nil_append, e1, e2]
  rfl

theorem main_err (env : Env) (terse : Int) (h : parseOpts env.opts 0 = some terse)
    (n : Int) (ha : env.arg = some n) (hn : 1 ≤ n) (hm : env.mallocOk = true)
    (hc : env.ctxOk = true) (hr : env.runOk = true)
    (he : (runThreads env.invocations (readyState n env.initTimes)).g.err ≠ 0) :
    main env =
      { rc := EXIT_FAILURE,
        trace := [Ev.OPENSSL_malloc true, Ev.SSL_CTX_new true,
                  Ev.perflib_run_multi_thread_test true,
                  Ev.printf "Error during test\n" Arg.none,
                  Ev.SSL_CTX_free true, Ev.OPENSSL_free true],
        st := runThreads env.invocations (readyState n env.initTimes) } := by
  have hg := runThreads_globals env.invocations (readyState n env.initTimes)
  unfold main
  simp only [h, ha, hm, hc, hr, if_true, if_neg (not_lt.2 hn)]
  have e1 : (runThreads env.invocations
      ⟨⟨initState.g.err, true, computeNumCalls n, n, some env.initTimes⟩, initState.heap⟩).g.ctx
        = true := hg.2.2.2
  have e2 : (runThreads env.invocations
      ⟨⟨initState.g.err, true, computeNumCalls n, n, some env.initTimes⟩,
        initState.heap⟩).g.times.isSome = true := hg.2.2.1
  have e3 : (runThreads env.invocations
      ⟨⟨initState.g.err, true, computeNumCalls n, n, some env.initTimes⟩,
        initState.heap⟩).g.err ≠ 0 := he
  simp only [out, Bool.true_eq_false, if_false, List.cons_append, List.nil_append, e1, e2,
    if_pos e3]
  rfl

theorem main_ok (env : Env) (terse : Int) (h : parseOpts env.opts 0 = some terse)
    (n : Int) (ha : env.arg = some n) (hn : 1 ≤ n) (hm : env.mallocOk = true)
    (hc : env.ctxOk = true) (hr : env.runOk = true)
    (he : (runThreads env.invocations (readyState n env.initTimes)).g.err = 0) :
    main env =
      { rc := EXIT_SUCCESS,
        trace := [Ev.OPENSSL_malloc true, Ev.SSL_CTX_new true,
                  Ev.perflib_run_multi_thread_test true,
                  Ev.printf
                    (if terse ≠ 0 then "%lf\n"
                      else "Average time per SSL/BIO creation call: %lfus\n")
                    (Arg.dbl (avcalltime (runThreads env.invocations
                      (readyState n env.initTimes)).g)),
                  Ev.SSL_CTX_free true, Ev.OPENSSL_free true],
        st := runThreads env.invocations (readyState n env.initTimes) } := by
  have hg := runThreads_globals env.invocations (readyState n env.initTimes)
  unfold main
  simp only [h, ha, hm, hc, hr, if_true, if_neg (not_lt.2 hn)]
  have e1 : (runThreads env.invocations
      ⟨⟨initState.g.err, true, computeNumCalls n, n, some env.initTimes⟩, initState.heap⟩).g.ctx
        = true := hg.2.2.2
  have e2 : (runThreads env.invocations
      ⟨⟨initState.g.err, true, computeNumCalls n, n, some env.initTimes⟩,
        initState.heap⟩).g.times.isSome = true := hg.2.2.1
  have e3 : ¬ (runThreads env.invocations
      ⟨⟨initState.g.err, true, computeNumCalls n, n, some env.initTimes⟩,
        initState.heap⟩).g.err ≠ 0 := not_not.2 he
  simp only [out, Bool.true_eq_false, if_false, List.cons_append, List.nil_append, e1, e2,
    if_neg e3]
  by_cases ht : terse ≠ 0
  · simp only [if_pos ht]
    rfl
  · simp only [if_neg ht]
    rfl

/-- Case analysis along the exit paths of `main`. -/
theorem main_cases (env : Env) (P : Result → Prop)
    (hbad : parseOpts env.opts 0 = none →
      P { rc := EXIT_FAILURE,
          trace := [Ev.printf "Usage: %s [-t] threadcount\n" (Arg.str env.progname),
                    Ev.printf "-t - terse output\n" Arg.none],
          st := initState })
    (hnoarg : ∀ terse, parseOpts env.opts 0 = some terse → env.arg = none →
      P { rc := EXIT_FAILURE,
          trace := [Ev.printf "threadcount is missing\n" Arg.none],
          st := initState })
    (hsmall : ∀ terse n, parseOpts env.opts 0 = some terse → env.arg = some n → n < 1 →
      P { rc := EXIT_FAILURE,
          trace := [Ev.printf "threadcount must be > 0\n" Arg.none],
          st := { initState with g := { initState.g with threadcount := n } } })
    (hnomalloc : ∀ terse n, parseOpts env.opts 0 = some terse → env.arg = some n → 1 ≤ n →
      env.mallocOk = false →
      P { rc := EXIT_FAILURE,
          trace := [Ev.OPENSSL_malloc false,
                    Ev.printf "Failed to create times array\n" Arg.none],
          st := { initState with
                  g := { initState.g with threadcount := n, num_calls := computeNumCalls n } } })
    (hnoctx : ∀ terse n, parseOpts env.opts 0 = some terse → env.arg = some n → 1 ≤ n →
      env.mallocOk = true → env.ctxOk = false →
      P { rc := EXIT_FAILURE,
          trace := [Ev.OPENSSL_malloc true, Ev.SSL_CTX_new false,
                    Ev.printf "Failure to create SSL_CTX\n" Arg.none,
                    Ev.SSL_CTX_free false, Ev.OPENSSL_free true],
          st := { (readyState n env.initTimes) with
                  g := { (readyState n env.initTimes).g with ctx := false } } })
    (hrunfail : ∀ terse n, parseOpts env.opts 0 = some terse → env.arg = some n → 1 ≤ n →
      env.mallocOk = true → env.ctxOk = true → env.runOk = false →
      P { rc := EXIT_FAILURE,
          trace := [Ev.OPENSSL_malloc true, Ev.SSL_CTX_new true,
                    Ev.perflib_run_multi_thread_test false,
                    Ev.printf "Failed to run the test\n" Arg.none,
                    Ev.SSL_CTX_free true, Ev.OPENSSL_free true],
          st := runThreads env.invocations (readyState n env.initTimes) })
    (herr : ∀ terse n, parseOpts env.opts 0 = some terse → env.arg = some n → 1 ≤ n →
      env.mallocOk = true → env.ctxOk = true → env.runOk = true →
      (runThreads env.invocations (readyState n env.initTimes)).g.err ≠ 0 →
      P { rc := EXIT_FAILURE,
          trace := [Ev.OPENSSL_malloc true, Ev.SSL_CTX_new true,
                    Ev.perflib_run_multi_thread_test true,
                    Ev.printf "Error during test\n" Arg.none,
                    Ev.SSL_CTX_free true, Ev.OPENSSL_free true],
          st := runThreads env.invocations (readyState n env.initTimes) })
    (hok : ∀ terse n, parseOpts env.opts 0 = some terse → env.arg = some n → 1 ≤ n →
      env.mallocOk = true → env.ctxOk = true → env.runOk = true →
      (runThreads env.invocations (readyState n env.initTimes)).g.err = 0 →
      P { rc := EXIT_SUCCESS,
          trace := [Ev.OPENSSL_malloc true, Ev.SSL_CTX_new true,
                    Ev.perflib_run_multi_thread_test true,
                    Ev.printf
                      (if terse ≠ 0 then "%lf\n"
                        else "Average time per SSL/BIO creation call: %lfus\n")
                      (Arg.dbl (avcalltime (runThreads env.invocations
                        (readyState n env.initTimes)).g)),
                    Ev.SSL_CTX_free true, Ev.OPENSSL_free true],
          st := runThreads env.invocations (readyState n env.initTimes) }) :
    P (main env) := by
  cases hp : parseOpts env.opts 0 with
  | none =>
    rw [main_badopt env hp]
    exact hbad hp
  | some terse =>
    cases ha : env.arg with
    | none =>
      rw [main_noarg env terse hp ha]
      exact hnoarg terse hp ha
    | some n =>
      by_cases hn : n < 1
      · rw [main_small env terse hp n ha hn]
        exact hsmall terse n hp ha hn
      · have hn1 : 1 ≤ n := not_lt.1 hn
        cases hm : env.mallocOk with
        | false =>
          rw [main_nomalloc env terse hp n ha hn1 hm]
          exact hnomalloc terse n hp ha hn1 hm
        | true =>
          cases hc : env.ctxOk with
          | false =>
            rw [main_noctx env terse hp n ha hn1 hm hc]
            exact hnoctx terse n hp ha hn1 hm hc
          | true =>
            cases hr : env.runOk with
            | false =>
              rw [main_runfail env terse hp n ha hn1 hm hc hr]
              exact hrunfail terse n hp ha hn1 hm hc hr
            | true =>
              by_cases he : (runThreads env.invocations (readyState n env.initTimes)).g.err = 0
              · rw [main_ok env terse hp n ha hn1 hm hc hr he]
                exact hok terse n hp ha hn1 hm hc hr he
              · rw [main_err env terse hp n ha hn1 hm hc hr he]
                exact herr terse n hp ha hn1 hm hc hr he

theorem parseOpts_val (opts : List Char) (terse v : Int) (h : parseOpts opts terse = some v) :
    v = if opts = [] then terse else 1 := by
  induction opts generalizing terse with
  | nil =>
    simp only [parseOpts, Option.some.injEq] at h
    simp [h]
  | cons c rest ih =>
    unfold parseOpts at h
    by_cases hc : c = 't'
    · rw [if_pos hc] at h
      have := ih 1 h
      simp only [reduceCtorEq, if_false]
      split_ifs at this <;> exact this
    · rw [if_neg hc] at h
      cases h

theorem optsRecognised_of_some (opts : List Char) (terse v : Int)
    (h : parseOpts opts terse = some v) : optsRecognised opts :=
  (parseOpts_some_iff opts terse).1 ⟨v, h⟩

theorem not_optsRecognised_of_none (opts : List Char) (terse : Int)
    (h : parseOpts opts terse = none) : ¬ optsRecognised opts :=
  (parseOpts_none_iff opts terse).1 h

theorem newlines_usage : newlines "Usage: %s [-t] threadcount\n" = 1 := by decide

theorem newlines_help : newlines "-t - terse output\n" = 1 := by decide

theorem newlines_missing : newlines "threadcount is missing\n" = 1 := by decide

theorem newlines_small : newlines "threadcount must be > 0\n" = 1 := by decide

theorem newlines_times : newlines "Failed to create times array\n" = 1 := by decide

theorem newlines_ctx : newlines "Failure to create SSL_CTX\n" = 1 := by decide

theorem newlines_run : newlines "Failed to run the test\n" = 1 := by decide

theorem newlines_err : newlines "Error during test\n" = 1 := by decide

theorem newlines_terse : newlines "%lf\n" = 1 := by decide

theorem newlines_verbose :
    newlines "Average time per SSL/BIO creation call: %lfus\n" = 1 := by decide

/-- Once the thread count is accepted, `main` leaves it and the budget in the globals. -/
theorem main_globals (env : Env) (n : Int) (hopts : optsRecognised env.opts)
    (harg : env.arg = some n) (hn : 1 ≤ n) :
    (main env).st.g.threadcount = n ∧ (main env).st.g.num_calls = computeNumCalls n := by
  have hg := runThreads_globals env.invocations (readyState n env.initTimes)
  apply main_cases env (fun r => r.st.g.threadcount = n ∧ r.st.g.num_calls = computeNumCalls n)
  · intro hp
    exact absurd hopts (not_optsRecognised_of_none _ _ hp)
  · intro terse hp ha
    rw [ha] at harg
    cases harg
  · intro terse m hp ha hm
    rw [ha] at harg
    cases harg
    omega
  · intro terse m hp ha hm hmal
    rw [ha] at harg
    cases harg
    exact ⟨rfl, rfl⟩
  · intro terse m hp ha hm hmal hc
    rw [ha] at harg
    cases harg
    exact ⟨rfl, rfl⟩
  all_goals
    intro terse m hp ha
    intros
    rw [ha] at harg
    cases harg
    exact ⟨hg.2.1, hg.1⟩

theorem loopBound_of_globals (g : Globals) (t : Int) (h1 : 1 ≤ t) (h2 : t ≤ INT_MAX)
    (htc : g.threadcount = t) (hnc : g.num_calls = computeNumCalls t) :
    ((loopBound g : Nat) : Int) = (computeNumCalls t : Int) / t := by
  unfold loopBound
  rw [htc, hnc, Int.natCast_div, toSizeT_of_nonneg t (by omega) h2]

/-- The shares of `t` threads make up the whole budget. -/
theorem shares_sum (t : Int) (h1 : 1 ≤ t) (h2 : t ≤ INT_MAX) :
    t * ((computeNumCalls t : Int) / t) = computeNumCalls t :=
  Int.mul_ediv_cancel' (Int.dvd_of_emod_eq_zero (computeNumCalls_mod t h1 h2))

theorem computeNumCalls_three : computeNumCalls 3 = 1000002 := by decide

theorem loopBound_three (g : Globals) (htc : g.threadcount = 3)
    (hnc : g.num_calls = computeNumCalls 3) : loopBound g = 333334 := by
  unfold loopBound
  rw [htc, hnc]
  decide

theorem three_threads_count (g : Globals) (htc : g.threadcount = 3)
    (hnc : g.num_calls = computeNumCalls 3) (inv : Invocation) (h : Heap) :
    (do_sslnew inv ⟨g, h⟩).heap.calls.count Call.SSL_new = h.calls.count Call.SSL_new + 333334 ∧
    (do_sslnew inv ⟨g, h⟩).heap.calls.count Call.SSL_free
      = h.calls.count Call.SSL_free + 333334 := by
  have hb := loopBound_three g htc hnc
  have hc := do_sslnew_calls inv ⟨g, h⟩
  simp only [hb] at hc
  exact ⟨hc.1, hc.2.2⟩

/-! ## Lemmas on the reported average -/

/-- Without saturation the summation loop adds up the slots it visits. -/
theorem sumLoop_exact (times : Nat → Nat) (n i ttime : Nat)
    (h : ttime + ∑ k ∈ Finset.range n, times (i + k) ≤ UINT64_MAX) :
    sumLoop times n i ttime = ttime + ∑ k ∈ Finset.range n, times (i + k) := by
  induction n generalizing i ttime with
  | zero => simp [sumLoop]
  | succ n ih =>
    have hs : ∑ k ∈ Finset.range (n + 1), times (i + k)
        = times i + ∑ k ∈ Finset.range n, times (i + 1 + k) := by
      rw [Finset.sum_range_succ', Nat.add_zero, Nat.add_comm]
      congr 1
      apply Finset.sum_congr rfl
      intro k _
      congr 1
      omega
    rw [hs] at h ⊢
    have hadd : ossl_time_add ttime (times i) = ttime + times i := by
      unfold ossl_time_add
      rw [if_pos (by omega)]
    simp only [sumLoop]
    rw [hadd, ih (i + 1) (ttime + times i) (by omega)]
    omega

/-- Without saturation `ttime` is the sum of the slots `0 .. threadcount - 1`. -/
theorem totalTime_exact (g : Globals) (h1 : 1 ≤ g.threadcount) (h2 : g.threadcount ≤ INT_MAX)
    (hsat : ∑ i ∈ Finset.range g.threadcount.toNat, timesAt g i ≤ UINT64_MAX) :
    totalTime g = ∑ i ∈ Finset.range g.threadcount.toNat, timesAt g i := by
  have hsz : toSizeT g.threadcount = (g.threadcount.toNat - 1) + 1 := by
    have := toSizeT_of_nonneg g.threadcount (by omega) h2
    omega
  have hn : g.threadcount.toNat = (g.threadcount.toNat - 1) + 1 := by omega
  have hs : ∑ i ∈ Finset.range g.threadcount.toNat, timesAt g i
      = timesAt g 0 + ∑ k ∈ Finset.range (g.threadcount.toNat - 1), timesAt g (1 + k) := by
    rw [hn, Finset.sum_range_succ', Nat.add_comm]
    congr 1
    apply Finset.sum_congr rfl
    intro k _
    congr 1
    omega
  unfold totalTime
  rw [hsz, Nat.add_sub_cancel, hs]
  rw [hs] at hsat
  exact sumLoop_exact (timesAt g) _ 1 (timesAt g 0) hsat

theorem do_sslnew_times (inv : Invocation) (st : State) :
    (do_sslnew inv st).g.times = st.g.times.map
      (fun a => Function.update a inv.num (ossl_time_subtract inv.end_ inv.start)) := by
  have h := loop_globals inv.alloc (loopBound st.g) 0 st
  unfold do_sslnew
  simp only []
  rw [h.2.2.1]

theorem runThreads_times (invs : List Invocation) (st : State) :
    (runThreads invs st).g.times = st.g.times.map
      (fun a => invs.foldl
        (fun b inv => Function.update b inv.num (ossl_time_subtract inv.end_ inv.start)) a) := by
  induction invs generalizing st with
  | nil =>
    rw [runThreads_nil]
    cases st.g.times <;> rfl
  | cons inv invs ih =>
    rw [runThreads_cons, ih (do_sslnew inv st), do_sslnew_times]
    cases st.g.times <;> rfl

theorem runThreads_err_zero (invs : List Invocation) (st : State) (h0 : st.g.err = 0)
    (hno : ∀ inv, inv ∈ invs → ∀ i, ¬ allocFails inv i) : (runThreads invs st).g.err = 0 := by
  by_contra hne
  rcases (runThreads_err_iff invs st).1 hne with h | ⟨inv, hin, i, _, hf⟩
  · exact h h0
  · exact hno inv hin i hf

/-- The message of line 111 is printed exactly when the threads were run, the
threading utility reported success and an allocation of some iteration failed. -/
theorem main_err_message_iff (env : Env) :
    Ev.printf "Error during test\n" Arg.none ∈ (main env).trace ↔
      optsRecognised env.opts ∧ env.mallocOk = true ∧ env.ctxOk = true ∧ env.runOk = true ∧
      ∃ n, env.arg = some n ∧ 1 ≤ n ∧
        ∃ inv, inv ∈ env.invocations ∧
          ∃ i, i < loopBound (readyState n env.initTimes).g ∧ allocFails inv i := by
  apply main_cases env (fun r =>
    Ev.printf "Error during test\n" Arg.none ∈ r.trace ↔
      optsRecognised env.opts ∧ env.mallocOk = true ∧ env.ctxOk = true ∧ env.runOk = true ∧
      ∃ n, env.arg = some n ∧ 1 ≤ n ∧
        ∃ inv, inv ∈ env.invocations ∧
          ∃ i, i < loopBound (readyState n env.initTimes).g ∧ allocFails inv i)
  · intro hp
    have := not_optsRecognised_of_none _ _ hp
    simp [this]
  · intro terse hp ha
    simp [ha]
  · intro terse n hp ha hn
    have hn2 : ¬ 1 ≤ n := by omega
    simp [ha, hn2]
  · intro terse n hp ha hn hm
    simp [hm]
  · intro terse n hp ha hn hm hc
    simp [hc]
  · intro terse n hp ha hn hm hc hr
    simp [hr]
  · intro terse n hp ha hn hm hc hr he
    have hrec := optsRecognised_of_some _ _ _ hp
    have hex := (runThreads_err_iff env.invocations (readyState n env.initTimes)).1 he
    have h0 : (readyState n env.initTimes).g.err = 0 := rfl
    rcases hex with hex | hex
    · exact absurd h0 hex
    · simp only [List.mem_cons, true_or, or_true, true_iff]
      exact ⟨hrec, hm, hc, hr, n, ha, hn, hex⟩
  · intro terse n hp ha hn hm hc hr he
    have hno : ¬ ∃ inv, inv ∈ env.invocations ∧
        ∃ i, i < loopBound (readyState n env.initTimes).g ∧ allocFails inv i := by
      intro hex
      exact (runThreads_err_iff env.invocations (readyState n env.initTimes)).2 (Or.inr hex) he
    constructor
    · intro hmem
      simp at hmem
    · rintro ⟨-, -, -, -, m, hm2, -, hex⟩
      rw [ha] at hm2
      cases hm2
      exact absurd hex hno

/-! ## The run `sslnew 3` -/

theorem env3_no_failure : ∀ inv, inv ∈ env3.invocations → ∀ i, ¬ allocFails inv i := by
  intro inv hin i
  simp only [env3, List.mem_cons, List.mem_singleton, List.not_mem_nil, or_false] at hin
  rcases hin with rfl | rfl | rfl <;> simp [allocFails, okThread, okAlloc]

theorem env3_err : (runThreads env3.invocations (readyState 3 env3.initTimes)).g.err = 0 :=
  runThreads_err_zero _ _ rfl env3_no_failure

theorem env3_main :
    main env3 =
      { rc := EXIT_SUCCESS,
        trace := [Ev.OPENSSL_malloc true, Ev.SSL_CTX_new true,
                  Ev.perflib_run_multi_thread_test true,
                  Ev.printf
                    (if (0 : Int) ≠ 0 then "%lf\n"
                      else "Average time per SSL/BIO creation call: %lfus\n")
                    (Arg.dbl (avcalltime (runThreads env3.invocations
                      (readyState 3 env3.initTimes)).g)),
                  Ev.SSL_CTX_free true, Ev.OPENSSL_free true],
        st := runThreads env3.invocations (readyState 3 env3.initTimes) } :=
  main_ok env3 0 rfl 3 rfl (by decide) rfl rfl rfl env3_err

theorem env3_rc : (main env3).rc = EXIT_SUCCESS := congrArg Result.rc env3_main

theorem result_st (r : Result) (rc : Int) (tr : List Ev) (st : State)
    (h : r = { rc := rc, trace := tr, st := st }) : r.st = st := by
  rw [h]

theorem env3_st : (main env3).st = runThreads env3.invocations (readyState 3 env3.initTimes) :=
  result_st _ _ _ _ env3_main

theorem times_three (st : State) (init : Nat → Nat) (hinit : st.g.times = some init)
    (d0 d1 d2 i : Nat) :
    timesAt (runThreads [okThread 0 d0, okThread 1 d1, okThread 2 d2] st).g i =
      if i = 2 then d2 else if i = 1 then d1 else if i = 0 then d0 else init i := by
  unfold timesAt
  rw [runThreads_times, hinit]
  simp only [Option.map_some', List.foldl_cons, List.foldl_nil, okThread, ossl_time_subtract,
    Function.update_apply]
  have e0 : (100 : Nat) ≤ 100 + d0 := by omega
  have e1 : (100 : Nat) ≤ 100 + d1 := by omega
  have e2 : (100 : Nat) ≤ 100 + d2 := by omega
  simp only [if_pos e0, if_pos e1, if_pos e2, Nat.add_sub_cancel_left]

theorem sum_three (f : Nat → Nat) (d0 d1 d2 : Nat) (h0 : f 0 = d0) (h1 : f 1 = d1)
    (h2 : f 2 = d2) : ∑ i ∈ Finset.range (3 : Int).toNat, f i = d0 + d1 + d2 := by
  have h3 : (3 : Int).toNat = 3 := rfl
  rw [h3, Finset.sum_range_succ, Finset.sum_range_succ, Finset.sum_range_succ,
    Finset.sum_range_zero, h0, h1, h2, Nat.zero_add]

theorem timesAt_congr (s1 s2 : State) (h : s1 = s2) (i : Nat) :
    timesAt s1.g i = timesAt s2.g i := by
  rw [h]

theorem env3_times (i : Nat) :
    timesAt (main env3).st.g i =
      if i = 2 then 5000000 else if i = 1 then 4000000 else if i = 0 then 3000000 else 0 :=
  (timesAt_congr _ _ env3_st i).trans
    (times_three (readyState 3 env3.initTimes) env3.initTimes rfl 3000000 4000000 5000000 i)

theorem env3_sum :
    ∑ i ∈ Finset.range (3 : Int).toNat, timesAt (main env3).st.g i
      = 3000000 + 4000000 + 5000000 :=
  sum_three (fun i => timesAt (main env3).st.g i) 3000000 4000000 5000000
    (env3_times 0) (env3_times 1) (env3_times 2)

/-! ## Lemmas on the objects of one iteration -/

theorem Heap.released_fresh (h : Heap) (hwf : h.wf) (id : Nat) (hid : h.next ≤ id) :
    h.released.count id = 0 := by
  apply List.count_eq_zero_of_not_mem
  intro hmem
  have := hwf.2.1 id hmem
  omega

theorem Heap.allocated_fresh (h : Heap) (hwf : h.wf) (id : Nat) (hid : h.next ≤ id) :
    id ∉ h.allocated := by
  intro hmem
  have := hwf.1 id hmem
  omega

theorem Heap.bound_fresh (h : Heap) (hwf : h.wf) (s : Nat) (hs : h.next ≤ s) :
    h.bound.filter (fun b => b.1 = s) = [] := by
  rw [List.filter_eq_nil_iff]
  intro b hb
  have := hwf.2.2 b hb
  simp only [decide_eq_true_eq]
  omega

theorem iteration_next (a : Alloc) (st : State) :
    (iteration a st).heap.next = st.heap.next + a.created := by
  rcases a with ⟨_ | _, _ | _, _ | _⟩ <;>
    simp [iteration, SSL_new, BIO_new, Heap.create, BIO_free, SSL_set_bio, SSL_free,
      Alloc.created]

theorem iteration_new_objects (a : Alloc) (st : State) (hwf : st.heap.wf) (id : Nat)
    (h1 : st.heap.next ≤ id) (h2 : id < (iteration a st).heap.next) :
    id ∈ (iteration a st).heap.allocated ∧ (iteration a st).heap.released.count id = 1 := by
  have hb := Heap.bound_fresh st.heap hwf st.heap.next (le_refl _)
  have hf := Heap.released_fresh st.heap hwf id h1
  have hn := iteration_next a st
  have hid : id = st.heap.next ∨ id = st.heap.next + 1 ∨ id = st.heap.next + 2 := by
    have : a.created ≤ 3 := by
      rcases a with ⟨_ | _, _ | _, _ | _⟩ <;> simp [Alloc.created]
    omega
  clear hn
  rcases a with ⟨_ | _, _ | _, _ | _⟩ <;>
    simp only [iteration, SSL_new, BIO_new, Heap.create, BIO_free, SSL_set_bio, SSL_free,
      Heap.ownedBy] at h2 ⊢ <;>
    simp [hb, hf, List.count_cons] at h2 ⊢ <;>
    rcases hid with rfl | rfl | rfl <;>
    first
      | omega
      | (simp <;> omega)

theorem iteration_old_objects (a : Alloc) (st : State) (hwf : st.heap.wf) (id : Nat)
    (h1 : id < st.heap.next) :
    (id ∈ (iteration a st).heap.allocated ↔ id ∈ st.heap.allocated) ∧
    (iteration a st).heap.released.count id = st.heap.released.count id := by
  have hb := Heap.bound_fresh st.heap hwf st.heap.next (le_refl _)
  have e0 : ¬ st.heap.next = id := by omega
  have e1 : ¬ st.heap.next + 1 = id := by omega
  have e2 : ¬ st.heap.next + 1 + 1 = id := by omega
  have f0 : ¬ id = st.heap.next := by omega
  have f1 : ¬ id = st.heap.next + 1 := by omega
  have f2 : ¬ id = st.heap.next + 1 + 1 := by omega
  rcases a with ⟨_ | _, _ | _, _ | _⟩ <;>
    simp only [iteration, SSL_new, BIO_new, Heap.create, BIO_free, SSL_set_bio, SSL_free,
      Heap.ownedBy] <;>
    simp [hb, List.count_cons, e0, e1, e2, f0, f1, f2]

theorem iteration_beyond (a : Alloc) (st : State) (hwf : st.heap.wf) (id : Nat)
    (h1 : (iteration a st).heap.next ≤ id) :
    id ∉ (iteration a st).heap.allocated ∧ (iteration a st).heap.released.count id = 0 := by
  have hb := Heap.bound_fresh st.heap hwf st.heap.next (le_refl _)
  have hn := iteration_next a st
  have hf := Heap.released_fresh st.heap hwf id (by omega)
  have ha := Heap.allocated_fresh st.heap hwf id (by omega)
  clear hn
  rcases a with ⟨_ | _, _ | _, _ | _⟩ <;>
    simp only [iteration, SSL_new, BIO_new, Heap.create, BIO_free, SSL_set_bio, SSL_free,
      Heap.ownedBy] at h1 ⊢ <;>
    simp [hb, hf, ha, List.count_cons] at h1 ⊢ <;>
    omega

theorem iteration_set_bio (a : Alloc) (st : State) :
    (iteration a st).heap.calls.count Call.SSL_set_bio
      = st.heap.calls.count Call.SSL_set_bio
        + (if a.s = true ∧ a.rbio = true ∧ a.wbio = true then 1 else 0) := by
  rcases a with ⟨_ | _, _ | _, _ | _⟩ <;>
    simp [iteration, SSL_new, BIO_new, Heap.create, BIO_free, SSL_set_bio, SSL_free]

theorem iteration_wf (a : Alloc) (st : State) (hwf : st.heap.wf) :
    (iteration a st).heap.wf := by
  have hb := Heap.bound_fresh st.heap hwf st.heap.next (le_refl _)
  obtain ⟨w1, w2, w3⟩ := hwf
  rcases a with ⟨_ | _, _ | _, _ | _⟩ <;>
    simp only [iteration, SSL_new, BIO_new, Heap.create, BIO_free, SSL_set_bio, SSL_free,
      Heap.ownedBy, Heap.wf] <;>
    simp [hb] <;>
    (repeat' (apply And.intro)) <;>
    first
      | omega
      | (intro x hx
         have := w1 x hx
         omega)
      | (intro x hx
         have := w2 x hx
         omega)
      | (intro x y z hx
         have : x < st.heap.next := w3 (x, y, z) hx
         omega)
/-! ## Claims -/

/-- C1: for every thread count `t` with `1 ≤ t ≤ INT_MAX` the budget `num_calls`
computed by `main` is a multiple of `t`, is at least 1000000, is the least
natural number with both properties, equals `ceil(1000000 / t) * t`, and the
remainder, the padding and the `size_t` sum are computed without overflow. -/
theorem C1_budget_rounding (t : Int) (h1 : 1 ≤ t) (h2 : t ≤ INT_MAX) :
    (computeNumCalls t : Int) % t = 0 ∧
    1000000 ≤ computeNumCalls t ∧
    (∀ m : Nat, (m : Int) % t = 0 → 1000000 ≤ m → computeNumCalls t ≤ m) ∧
    (computeNumCalls t : Int) = ⌈(1000000 : ℚ) / (t : ℚ)⌉ * t ∧
    inIntRange (remExact t) ∧ inIntRange (padExact t) ∧ sumExact t ≤ SIZE_MAX :=
  ⟨computeNumCalls_mod t h1 h2, computeNumCalls_ge t h1 h2,
   fun m hm hge => computeNumCalls_least t h1 h2 m hm hge,
   computeNumCalls_ceil t h1 h2, computeNumCalls_no_overflow t h1 h2⟩

/-- C1 at `threadcount = 3`. -/
theorem C1_budget_rounding_witness :
    (1 : Int) ≤ 3 ∧ (3 : Int) ≤ INT_MAX ∧
    ((computeNumCalls 3 : Int) % 3 = 0 ∧
    1000000 ≤ computeNumCalls 3 ∧
    (∀ m : Nat, (m : Int) % 3 = 0 → 1000000 ≤ m → computeNumCalls 3 ≤ m) ∧
    (computeNumCalls 3 : Int) = ⌈(1000000 : ℚ) / ((3 : Int) : ℚ)⌉ * 3 ∧
    inIntRange (remExact 3) ∧ inIntRange (padExact 3) ∧ sumExact 3 ≤ SIZE_MAX) :=
  ⟨by decide, by decide, C1_budget_rounding 3 (by decide) (by decide)⟩

/-- C2 (amended): for `threadcount = 3`, `main` computes a budget of 1000002 and
the loop of every call of `do_sslnew` runs 333334 iterations, whatever the
outcome of the allocations. -/
theorem C2_three_threads (env : Env) (hopts : optsRecognised env.opts)
    (harg : env.arg = some 3) (inv : Invocation) (h : Heap) :
    (main env).st.g.threadcount = 3 ∧ (main env).st.g.num_calls = 1000002 ∧
    loopBound (main env).st.g = 333334 ∧
    (do_sslnew inv ⟨(main env).st.g, h⟩).heap.calls.count Call.SSL_new
      = h.calls.count Call.SSL_new + 333334 ∧
    (do_sslnew inv ⟨(main env).st.g, h⟩).heap.calls.count Call.SSL_free
      = h.calls.count Call.SSL_free + 333334 := by
  have hg := main_globals env 3 hopts harg (by decide)
  have hb := loopBound_three (main env).st.g hg.1 hg.2
  have hc := three_threads_count (main env).st.g hg.1 hg.2 inv h
  exact ⟨hg.1, hg.2.trans computeNumCalls_three, hb, hc.1, hc.2⟩

/-- C2 at a concrete run of `sslnew 3`. -/
theorem C2_three_threads_witness :
    optsRecognised env3.opts ∧ env3.arg = some 3 ∧
    (main env3).st.g.threadcount = 3 ∧ (main env3).st.g.num_calls = 1000002 ∧
    loopBound (main env3).st.g = 333334 ∧
    (do_sslnew (okThread 0 7) ⟨(main env3).st.g, Heap.empty⟩).heap.calls.count Call.SSL_new
      = Heap.empty.calls.count Call.SSL_new + 333334 ∧
    (do_sslnew (okThread 0 7) ⟨(main env3).st.g, Heap.empty⟩).heap.calls.count Call.SSL_free
      = Heap.empty.calls.count Call.SSL_free + 333334 :=
  ⟨by decide, rfl, C2_three_threads env3 (by decide) rfl (okThread 0 7) Heap.empty⟩

/-- C2 (as stated) fails: for `threadcount = 3` a thread does not run 334334
iterations. -/
theorem C2_counterexample :
    ¬ ((main env3).st.g.num_calls = 1000002 ∧
       (do_sslnew (okThread 0 7) ⟨(main env3).st.g, Heap.empty⟩).heap.calls.count Call.SSL_new
         = 334334) := by
  have hg := main_globals env3 3 (by decide) rfl (by decide)
  have hc := three_threads_count (main env3).st.g hg.1 hg.2 (okThread 0 7) Heap.empty
  intro hAB
  exact absurd (hc.1.symm.trans hAB.2) (by decide)

/-- C3: with the budget and thread count `main` sets for a thread count `t` in
`1 .. INT_MAX`, every call of `do_sslnew` performs exactly `num_calls / t`
creations and `num_calls / t` releases of a session whatever the allocations
do, `t * (num_calls / t) = num_calls`, and `t` calls together perform exactly
`num_calls` cycles. -/
theorem C3_thread_shares (t : Int) (h1 : 1 ≤ t) (h2 : t ≤ INT_MAX) (env : Env)
    (hopts : optsRecognised env.opts) (harg : env.arg = some t)
    (inv : Invocation) (h : Heap) (invs : List Invocation) (hlen : (invs.length : Int) = t) :
    (do_sslnew inv ⟨(main env).st.g, h⟩).heap.calls.count Call.SSL_new
      = h.calls.count Call.SSL_new + loopBound (main env).st.g ∧
    (do_sslnew inv ⟨(main env).st.g, h⟩).heap.calls.count Call.SSL_free
      = h.calls.count Call.SSL_free + loopBound (main env).st.g ∧
    ((loopBound (main env).st.g : Nat) : Int) = ((main env).st.g.num_calls : Int) / t ∧
    t * (((main env).st.g.num_calls : Int) / t) = (main env).st.g.num_calls ∧
    (runThreads invs ⟨(main env).st.g, h⟩).heap.calls.count Call.SSL_new
      = h.calls.count Call.SSL_new + (main env).st.g.num_calls ∧
    (runThreads invs ⟨(main env).st.g, h⟩).heap.calls.count Call.SSL_free
      = h.calls.count Call.SSL_free + (main env).st.g.num_calls := by
  have hg := main_globals env t hopts harg h1
  have hb := loopBound_of_globals (main env).st.g t h1 h2 hg.1 hg.2
  have hc := do_sslnew_calls inv ⟨(main env).st.g, h⟩
  have hs := shares_sum t h1 h2
  have hr := runThreads_calls invs ⟨(main env).st.g, h⟩
  have htot : invs.length * loopBound (main env).st.g = (main env).st.g.num_calls := by
    have : ((invs.length * loopBound (main env).st.g : Nat) : Int)
        = ((main env).st.g.num_calls : Int) := by
      push_cast
      rw [hlen, hb, hg.2]
      exact hs
    exact_mod_cast this
  simp only [htot] at hr
  rw [hg.2]
  rw [hg.2] at hr
  exact ⟨hc.1, hc.2.2, hb, hs, hr.1, hr.2⟩

/-- C3 at a run of `sslnew 3`, for a thread one of whose allocations fails: it
still performs its full share, and three threads perform the whole budget. -/
theorem C3_thread_shares_witness :
    (1 : Int) ≤ 3 ∧ (3 : Int) ≤ INT_MAX ∧ optsRecognised env3.opts ∧ env3.arg = some 3 ∧
    ((env3.invocations.length : Nat) : Int) = 3 ∧
    (do_sslnew failThread ⟨(main env3).st.g, Heap.empty⟩).heap.calls.count Call.SSL_free
      = Heap.empty.calls.count Call.SSL_free + loopBound (main env3).st.g ∧
    (runThreads env3.invocations ⟨(main env3).st.g, Heap.empty⟩).heap.calls.count Call.SSL_new
      = Heap.empty.calls.count Call.SSL_new + (main env3).st.g.num_calls :=
  ⟨by decide, by decide, by decide, rfl, by decide,
   (C3_thread_shares 3 (by decide) (by decide) env3 (by decide) rfl failThread Heap.empty
      env3.invocations (by decide)).2.1,
   (C3_thread_shares 3 (by decide) (by decide) env3 (by decide) rfl failThread Heap.empty
      env3.invocations (by decide)).2.2.2.2.1⟩

/-- C4: `main` returns `EXIT_SUCCESS` exactly when the options are recognised,
a thread count of at least 1 is given, the `times` array and the `SSL_CTX` are
created, the threading utility reports success and `err` is 0 after the run;
and the average is printed exactly when `main` returns `EXIT_SUCCESS`. -/
theorem C4_exit_status (env : Env) :
    ((main env).rc = EXIT_SUCCESS ↔
      optsRecognised env.opts ∧ (∃ n, env.arg = some n ∧ 1 ≤ n) ∧ env.mallocOk = true ∧
      env.ctxOk = true ∧ env.runOk = true ∧ (main env).st.g.err = 0) ∧
    ((main env).trace.any Ev.isTiming = true ↔ (main env).rc = EXIT_SUCCESS) := by
  apply main_cases env (fun r =>
    (r.rc = EXIT_SUCCESS ↔
      optsRecognised env.opts ∧ (∃ n, env.arg = some n ∧ 1 ≤ n) ∧ env.mallocOk = true ∧
      env.ctxOk = true ∧ env.runOk = true ∧ r.st.g.err = 0) ∧
    (r.trace.any Ev.isTiming = true ↔ r.rc = EXIT_SUCCESS))
  · intro hp
    have := not_optsRecognised_of_none _ _ hp
    simp [EXIT_SUCCESS, EXIT_FAILURE, Ev.isTiming, this]
  · intro terse hp ha
    simp [EXIT_SUCCESS, EXIT_FAILURE, Ev.isTiming, ha]
  · intro terse n hp ha hn
    simp only [EXIT_SUCCESS, EXIT_FAILURE, Ev.isTiming, ha, List.any_cons, List.any_nil,
      Bool.or_false, one_ne_zero, false_iff, Bool.false_eq_true, iff_self, and_true,
      Option.some.injEq, not_and]
    rintro - ⟨m, rfl, hm⟩
    omega
  · intro terse n hp ha hn hm
    simp [EXIT_SUCCESS, EXIT_FAILURE, Ev.isTiming, hm]
  · intro terse n hp ha hn hm hc
    simp [EXIT_SUCCESS, EXIT_FAILURE, Ev.isTiming, hc]
  · intro terse n hp ha hn hm hc hr
    simp [EXIT_SUCCESS, EXIT_FAILURE, Ev.isTiming, hr]
  · intro terse n hp ha hn hm hc hr he
    simp [EXIT_SUCCESS, EXIT_FAILURE, Ev.isTiming, he]
  · intro terse n hp ha hn hm hc hr he
    have := optsRecognised_of_some _ _ _ hp
    simp [EXIT_SUCCESS, Ev.isTiming, this, ha, hn, hm, hc, hr, he]

/-- C5: the threading utility is called exactly when the options are recognised,
a thread count of at least 1 is given and both the `times` array and the
`SSL_CTX` are created; on every other run `main` returns `EXIT_FAILURE`, prints a
message and no workload call has been made.  The message for a thread count
below 1 and the message for a failed `SSL_CTX_new` are printed exactly on those
two paths, hence without the threading utility being called. -/
theorem C5_run_only_after_setup (env : Env) :
    ((main env).trace.any Ev.isRun = true ↔
      optsRecognised env.opts ∧ (∃ n, env.arg = some n ∧ 1 ≤ n) ∧ env.mallocOk = true ∧
      env.ctxOk = true) ∧
    ((main env).trace.any Ev.isRun = true ∨
      ((main env).rc = EXIT_FAILURE ∧ (main env).st.heap.calls = [] ∧
        1 ≤ linesWritten (main env).trace)) ∧
    (Ev.printf "threadcount must be > 0\n" Arg.none ∈ (main env).trace ↔
      optsRecognised env.opts ∧ ∃ n, env.arg = some n ∧ n < 1) ∧
    (Ev.printf "Failure to create SSL_CTX\n" Arg.none ∈ (main env).trace ↔
      optsRecognised env.opts ∧ (∃ n, env.arg = some n ∧ 1 ≤ n) ∧ env.mallocOk = true ∧
      env.ctxOk = false) := by
  apply main_cases env (fun r =>
    (r.trace.any Ev.isRun = true ↔
      optsRecognised env.opts ∧ (∃ n, env.arg = some n ∧ 1 ≤ n) ∧ env.mallocOk = true ∧
      env.ctxOk = true) ∧
    (r.trace.any Ev.isRun = true ∨
      (r.rc = EXIT_FAILURE ∧ r.st.heap.calls = [] ∧ 1 ≤ linesWritten r.trace)) ∧
    (Ev.printf "threadcount must be > 0\n" Arg.none ∈ r.trace ↔
      optsRecognised env.opts ∧ ∃ n, env.arg = some n ∧ n < 1) ∧
    (Ev.printf "Failure to create SSL_CTX\n" Arg.none ∈ r.trace ↔
      optsRecognised env.opts ∧ (∃ n, env.arg = some n ∧ 1 ≤ n) ∧ env.mallocOk = true ∧
      env.ctxOk = false))
  · intro hp
    have := not_optsRecognised_of_none _ _ hp
    simp [Ev.isRun, this, linesWritten, Ev.lines, newlines_usage, newlines_help, initState,
      Heap.empty]
  · intro terse hp ha
    simp [Ev.isRun, ha, linesWritten, Ev.lines, newlines_missing, initState, Heap.empty]
  · intro terse n hp ha hn
    have := optsRecognised_of_some _ _ _ hp
    have hn2 : ¬ 1 ≤ n := by omega
    simp [Ev.isRun, ha, hn, hn2, this, linesWritten, Ev.lines, newlines_small, initState,
      Heap.empty]
  · intro terse n hp ha hn hm
    have hn2 : ¬ n < 1 := by omega
    simp [Ev.isRun, ha, hn2, hm, linesWritten, Ev.lines, newlines_times, initState,
      Heap.empty]
  · intro terse n hp ha hn hm hc
    have := optsRecognised_of_some _ _ _ hp
    have hn2 : ¬ n < 1 := by omega
    simp [Ev.isRun, ha, hn, hn2, hm, hc, this, linesWritten, Ev.lines, newlines_ctx,
      readyState, Heap.empty]
  · intro terse n hp ha hn hm hc hr
    have := optsRecognised_of_some _ _ _ hp
    have hn2 : ¬ n < 1 := by omega
    simp [Ev.isRun, ha, hn, hn2, hm, hc, this]
  · intro terse n hp ha hn hm hc hr he
    have := optsRecognised_of_some _ _ _ hp
    have hn2 : ¬ n < 1 := by omega
    simp [Ev.isRun, ha, hn, hn2, hm, hc, this]
  · intro terse n hp ha hn hm hc hr he
    have := optsRecognised_of_some _ _ _ hp
    have hn2 : ¬ n < 1 := by omega
    simp [Ev.isRun, ha, hn, hn2, hm, hc, this]

/-- C6 (amended): `main` writes one line to standard output on every run whose
options are all recognised and two lines (the usage line and the line
describing `-t`) when `getopt` reports an unrecognised option; every `printf`
writes exactly one line; and `main` returns `EXIT_SUCCESS` exactly when the
output is the single timing line, the bare `%lf` when `-t` was given and the
labelled sentence otherwise. -/
theorem C6_lines_written (env : Env) :
    linesWritten (main env).trace = (if optsRecognised env.opts then 1 else 2) ∧
    (stdout (main env).trace).length = (if optsRecognised env.opts then 1 else 2) ∧
    (∀ e ∈ stdout (main env).trace, e.lines = 1) ∧
    ((main env).rc = EXIT_SUCCESS ↔
      ∃ q, stdout (main env).trace =
        [Ev.printf
          (if env.opts = [] then "Average time per SSL/BIO creation call: %lfus\n"
            else "%lf\n")
          (Arg.dbl q)]) := by
  apply main_cases env (fun r =>
    linesWritten r.trace = (if optsRecognised env.opts then 1 else 2) ∧
    (stdout r.trace).length = (if optsRecognised env.opts then 1 else 2) ∧
    (∀ e ∈ stdout r.trace, e.lines = 1) ∧
    (r.rc = EXIT_SUCCESS ↔
      ∃ q, stdout r.trace =
        [Ev.printf
          (if env.opts = [] then "Average time per SSL/BIO creation call: %lfus\n"
            else "%lf\n")
          (Arg.dbl q)]))
  · intro hp
    have := not_optsRecognised_of_none _ _ hp
    simp [this, linesWritten, stdout, Ev.isPrintf, Ev.lines, newlines_usage, newlines_help,
      EXIT_SUCCESS, EXIT_FAILURE]
  · intro terse hp ha
    have := optsRecognised_of_some _ _ _ hp
    simp [this, linesWritten, stdout, Ev.isPrintf, Ev.lines, newlines_missing,
      EXIT_SUCCESS, EXIT_FAILURE]
  · intro terse n hp ha hn
    have := optsRecognised_of_some _ _ _ hp
    simp [this, linesWritten, stdout, Ev.isPrintf, Ev.lines, newlines_small,
      EXIT_SUCCESS, EXIT_FAILURE]
  · intro terse n hp ha hn hm
    have := optsRecognised_of_some _ _ _ hp
    simp [this, linesWritten, stdout, Ev.isPrintf, Ev.lines, newlines_times,
      EXIT_SUCCESS, EXIT_FAILURE]
  · intro terse n hp ha hn hm hc
    have := optsRecognised_of_some _ _ _ hp
    simp [this, linesWritten, stdout, Ev.isPrintf, Ev.lines, newlines_ctx,
      EXIT_SUCCESS, EXIT_FAILURE]
  · intro terse n hp ha hn hm hc hr
    have := optsRecognised_of_some _ _ _ hp
    simp [this, linesWritten, stdout, Ev.isPrintf, Ev.lines, newlines_run,
      EXIT_SUCCESS, EXIT_FAILURE]
  · intro terse n hp ha hn hm hc hr he
    have := optsRecognised_of_some _ _ _ hp
    simp [this, linesWritten, stdout, Ev.isPrintf, Ev.lines, newlines_err,
      EXIT_SUCCESS, EXIT_FAILURE]
  · intro terse n hp ha hn hm hc hr he
    have := optsRecognised_of_some _ _ _ hp
    have hv := parseOpts_val _ _ _ hp
    simp only [if_pos this]
    by_cases ho : env.opts = []
    · rw [if_pos ho] at hv
      simp [ho, hv, linesWritten, stdout, Ev.isPrintf, Ev.lines, newlines_verbose,
        EXIT_SUCCESS]
    · rw [if_neg ho] at hv
      simp [ho, hv, linesWritten, stdout, Ev.isPrintf, Ev.lines, newlines_terse,
        EXIT_SUCCESS]

/-- C6 (as stated) fails: with an unrecognised option `main` writes two lines,
not one. -/
theorem C6_counterexample :
    ¬ (linesWritten (main envBadFlag).trace = 1) := by
  decide

/-- C7: on a successful run with thread count `t` (an `int`), when the sum of the
slots does not saturate, the value `main` prints is
`(sum over i < t of times[i]) / num_calls / OSSL_TIME_US` over the rationals, every
slot counted once, where the divisor `num_calls` is the rounded-up budget
`ceil(1000000 / t) * t`. -/
theorem C7_reported_average (env : Env) (t : Int) (harg : env.arg = some t)
    (ht : t ≤ INT_MAX) (hrc : (main env).rc = EXIT_SUCCESS)
    (hsat : ∑ i ∈ Finset.range t.toNat, timesAt (main env).st.g i ≤ UINT64_MAX) :
    reported (main env).trace =
      some ((((∑ i ∈ Finset.range t.toNat, timesAt (main env).st.g i : Nat) : ℚ)
        / ((main env).st.g.num_calls : ℚ)) / (OSSL_TIME_US : ℚ)) ∧
    ((main env).st.g.num_calls : Int) = ⌈(1000000 : ℚ) / (t : ℚ)⌉ * t ∧
    1 ≤ t := by
  revert hrc hsat
  apply main_cases env (fun r =>
    r.rc = EXIT_SUCCESS →
    ∑ i ∈ Finset.range t.toNat, timesAt r.st.g i ≤ UINT64_MAX →
    reported r.trace =
      some ((((∑ i ∈ Finset.range t.toNat, timesAt r.st.g i : Nat) : ℚ)
        / (r.st.g.num_calls : ℚ)) / (OSSL_TIME_US : ℚ)) ∧
    (r.st.g.num_calls : Int) = ⌈(1000000 : ℚ) / (t : ℚ)⌉ * t ∧ 1 ≤ t)
  · intro _ hrc
    simp [EXIT_SUCCESS, EXIT_FAILURE] at hrc
  · intro _ _ _ hrc
    simp [EXIT_SUCCESS, EXIT_FAILURE] at hrc
  · intro _ _ _ _ _ hrc
    simp [EXIT_SUCCESS, EXIT_FAILURE] at hrc
  · intro _ _ _ _ _ _ hrc
    simp [EXIT_SUCCESS, EXIT_FAILURE] at hrc
  · intro _ _ _ _ _ _ _ hrc
    simp [EXIT_SUCCESS, EXIT_FAILURE] at hrc
  · intro _ _ _ _ _ _ _ _ hrc
    simp [EXIT_SUCCESS, EXIT_FAILURE] at hrc
  · intro _ _ _ _ _ _ _ _ _ hrc
    simp [EXIT_SUCCESS, EXIT_FAILURE] at hrc
  · intro terse n hp ha hn hm hc hr he _ hsat
    have hnt : n = t := by
      rw [ha] at harg
      exact Option.some.inj harg
    subst hnt
    have hg := runThreads_globals env.invocations (readyState n env.initTimes)
    have htc : (runThreads env.invocations (readyState n env.initTimes)).g.threadcount = n :=
      hg.2.1
    have hnc : (runThreads env.invocations (readyState n env.initTimes)).g.num_calls
        = computeNumCalls n := hg.1
    simp only [] at hsat ⊢
    have htot := totalTime_exact (runThreads env.invocations (readyState n env.initTimes)).g
      (by rw [htc]; exact hn) (by rw [htc]; exact ht) (by rw [htc]; exact hsat)
    rw [htc] at htot
    refine ⟨?_, ?_, hn⟩
    · simp only [reported, avcalltime, htot]
    · rw [hnc]
      exact computeNumCalls_ceil n hn ht

/-- C7 at the run `sslnew 3` whose threads take 3000000, 4000000 and 5000000
ticks: the hypotheses hold and the reported value is the sum of the three slots
divided by the budget and by `OSSL_TIME_US`. -/
theorem C7_reported_average_witness :
    env3.arg = some 3 ∧ (3 : Int) ≤ INT_MAX ∧ (main env3).rc = EXIT_SUCCESS ∧
    ∑ i ∈ Finset.range (3 : Int).toNat, timesAt (main env3).st.g i ≤ UINT64_MAX ∧
    ∑ i ∈ Finset.range (3 : Int).toNat, timesAt (main env3).st.g i
      = 3000000 + 4000000 + 5000000 ∧
    reported (main env3).trace =
      some ((((∑ i ∈ Finset.range (3 : Int).toNat, timesAt (main env3).st.g i : Nat) : ℚ)
        / ((main env3).st.g.num_calls : ℚ)) / (OSSL_TIME_US : ℚ)) :=
  ⟨rfl, by decide, env3_rc, le_of_eq_of_le env3_sum (by decide), env3_sum,
   (C7_reported_average env3 3 rfl (by decide) env3_rc
      (le_of_eq_of_le env3_sum (by decide))).1⟩

/-- C8: starting from `err = 0`, after the calls of `do_sslnew` have returned
`err` is nonzero exactly when some allocation failed in some iteration of some
call; without a failure the flag stays 0; a call of `do_sslnew` never clears a
flag that is set, nor do any further calls; and `main` prints `Error during test`
exactly when the threads were run with success reported and one of their
allocations failed. -/
theorem C8_err_flag (invs : List Invocation) (st : State) (h0 : st.g.err = 0) :
    ((runThreads invs st).g.err ≠ 0 ↔
      ∃ inv, inv ∈ invs ∧ ∃ i, i < loopBound st.g ∧ allocFails inv i) ∧
    ((∀ inv, inv ∈ invs → ∀ i, i < loopBound st.g → ¬ allocFails inv i) →
      (runThreads invs st).g.err = 0) ∧
    (∀ (inv : Invocation) (s : State), s.g.err ≠ 0 → (do_sslnew inv s).g.err ≠ 0) ∧
    (∀ (more : List Invocation), (runThreads invs st).g.err ≠ 0 →
      (runThreads more (runThreads invs st)).g.err ≠ 0) ∧
    (∀ env : Env, Ev.printf "Error during test\n" Arg.none ∈ (main env).trace ↔
      optsRecognised env.opts ∧ env.mallocOk = true ∧ env.ctxOk = true ∧ env.runOk = true ∧
      ∃ n, env.arg = some n ∧ 1 ≤ n ∧
        ∃ inv, inv ∈ env.invocations ∧
          ∃ i, i < loopBound (readyState n env.initTimes).g ∧ allocFails inv i) := by
  have hiff := runThreads_err_iff invs st
  simp only [h0, ne_eq, not_true_eq_false, false_or] at hiff
  refine ⟨hiff, ?_, fun inv s hs => do_sslnew_err_latch inv s hs, ?_, main_err_message_iff⟩
  · intro hno
    by_contra hne
    obtain ⟨inv, hin, i, hi, hf⟩ := hiff.1 hne
    exact hno inv hin i hi hf
  · intro more hne
    exact (runThreads_err_iff more _).2 (Or.inl hne)

/-- C8 at a run of two threads, one of which fails to create a buffer in its
sixth iteration: the flag starts at 0 and ends nonzero. -/
theorem C8_err_flag_witness :
    (readyState 3 (fun _ => 0)).g.err = 0 ∧
    (runThreads [okThread 0 1, failThread] (readyState 3 (fun _ => 0))).g.err ≠ 0 :=
  ⟨rfl,
   (C8_err_flag [okThread 0 1, failThread] (readyState 3 (fun _ => 0)) rfl).1.2
     ⟨failThread, by simp, 5, by decide, by simp [allocFails, failThread]⟩⟩

/-- C9: in one iteration of `do_sslnew`, for each outcome of the three
allocations, exactly the successful allocations create an object, every object
created in the iteration is released exactly once by its end, objects created
earlier are released no further time, no other identifier is released, and
`SSL_set_bio` is called exactly when all three allocations succeeded. -/
theorem C9_iteration_objects (a : Alloc) (st : State) (hwf : st.heap.wf) :
    (iteration a st).heap.next = st.heap.next + a.created ∧
    (∀ id, st.heap.next ≤ id → id < (iteration a st).heap.next →
      id ∈ (iteration a st).heap.allocated ∧ (iteration a st).heap.released.count id = 1) ∧
    (∀ id, id < st.heap.next →
      (id ∈ (iteration a st).heap.allocated ↔ id ∈ st.heap.allocated) ∧
      (iteration a st).heap.released.count id = st.heap.released.count id) ∧
    (∀ id, (iteration a st).heap.next ≤ id →
      id ∉ (iteration a st).heap.allocated ∧ (iteration a st).heap.released.count id = 0) ∧
    (iteration a st).heap.calls.count Call.SSL_set_bio
      = st.heap.calls.count Call.SSL_set_bio
        + (if a.s = true ∧ a.rbio = true ∧ a.wbio = true then 1 else 0) ∧
    (iteration a st).heap.wf :=
  ⟨iteration_next a st,
   fun id h1 h2 => iteration_new_objects a st hwf id h1 h2,
   fun id h1 => iteration_old_objects a st hwf id h1,
   fun id h1 => iteration_beyond a st hwf id h1,
   iteration_set_bio a st,
   iteration_wf a st hwf⟩

/-- C9 at the first iteration of a run in which the read buffer cannot be
created: the session and the write buffer are each released once and
`SSL_set_bio` is not called. -/
theorem C9_iteration_objects_witness :
    initState.heap.wf ∧
    (iteration ⟨true, false, true⟩ initState).heap.next = 2 ∧
    (iteration ⟨true, false, true⟩ initState).heap.released.count 0 = 1 ∧
    (iteration ⟨true, false, true⟩ initState).heap.released.count 1 = 1 ∧
    (iteration ⟨true, false, true⟩ initState).heap.calls.count Call.SSL_set_bio = 0 :=
  have hwf : initState.heap.wf :=
    ⟨fun _ h => absurd h (List.not_mem_nil _), fun _ h => absurd h (List.not_mem_nil _),
     fun _ h => absurd h (List.not_mem_nil _)⟩
  ⟨hwf,
   (C9_iteration_objects ⟨true, false, true⟩ initState hwf).1,
   ((C9_iteration_objects ⟨true, false, true⟩ initState hwf).2.1 0 (by decide) (by decide)).2,
   ((C9_iteration_objects ⟨true, false, true⟩ initState hwf).2.1 1 (by decide) (by decide)).2,
   (C9_iteration_objects ⟨true, false, true⟩ initState hwf).2.2.2.2.1⟩

/-- C10: on every exit path of `main` the `times` array is released as many
times as it was acquired, the `SSL_CTX` is released as many times as it was
acquired, and each is acquired at most once: what was acquired is released
exactly once, and nothing else is released. -/
theorem C10_resources_released (env : Env) :
    timesReleased (main env).trace = timesAcquired (main env).trace ∧
    ctxReleased (main env).trace = ctxAcquired (main env).trace ∧
    timesAcquired (main env).trace ≤ 1 ∧ ctxAcquired (main env).trace ≤ 1 ∧
    (timesAcquired (main env).trace = 1 ↔
      optsRecognised env.opts ∧ (∃ n, env.arg = some n ∧ 1 ≤ n) ∧ env.mallocOk = true) ∧
    (ctxAcquired (main env).trace = 1 ↔
      optsRecognised env.opts ∧ (∃ n, env.arg = some n ∧ 1 ≤ n) ∧ env.mallocOk = true ∧
      env.ctxOk = true) := by
  apply main_cases env (fun r =>
    timesReleased r.trace = timesAcquired r.trace ∧
    ctxReleased r.trace = ctxAcquired r.trace ∧
    timesAcquired r.trace ≤ 1 ∧ ctxAcquired r.trace ≤ 1 ∧
    (timesAcquired r.trace = 1 ↔
      optsRecognised env.opts ∧ (∃ n, env.arg = some n ∧ 1 ≤ n) ∧ env.mallocOk = true) ∧
    (ctxAcquired r.trace = 1 ↔
      optsRecognised env.opts ∧ (∃ n, env.arg = some n ∧ 1 ≤ n) ∧ env.mallocOk = true ∧
      env.ctxOk = true))
  · intro hp
    have := not_optsRecognised_of_none _ _ hp
    simp [timesReleased, timesAcquired, ctxReleased, ctxAcquired, List.count_cons, this]
  · intro terse hp ha
    simp [timesReleased, timesAcquired, ctxReleased, ctxAcquired, List.count_cons, ha]
  · intro terse n hp ha hn
    have hn2 : ¬ 1 ≤ n := by omega
    simp [timesReleased, timesAcquired, ctxReleased, ctxAcquired, List.count_cons, ha, hn2]
  · intro terse n hp ha hn hm
    simp [timesReleased, timesAcquired, ctxReleased, ctxAcquired, List.count_cons, hm]
  all_goals
    intro terse n hp ha hn hm hc
    intros
    have := optsRecognised_of_some _ _ _ hp
    simp [timesReleased, timesAcquired, ctxReleased, ctxAcquired, List.count_cons, this, ha,
      hn, hm, hc]

end Sslnew
